import Mathlib

/-!
Verification of the LogSink issue-sink service.

This file gives a shallow embedding, in Lean, of the core of the LogSink
server (a JavaScript/Express service persisting issues in a SQL store) and
proves properties of its lifecycle state machine, admission pipeline,
blacklist matcher, embedding merge, and cleanup engine.

Modelling conventions, used throughout:

* The `logs` table is a `List LogEntry` in insertion order.  SQL `SELECT`
  with `ORDER BY` is modelled as a stable insertion sort on the sort keys
  given in the query; rows that the query leaves unordered keep table
  order.  `LIMIT 1` is `List.head?`, `WHERE` is `List.filter`, and
  `UPDATE ... WHERE id = $1` maps the update over the matching rows and
  reports `rowCount > 0`.
* SQL timestamps (`timestamp`, `updated_at`, ...) are modelled as `Nat`
  instants; `NOW()` / `CURRENT_TIMESTAMP` is an explicit `now` argument.
  The store's `BEFORE UPDATE` trigger refreshes `updated_at` on every row
  update, so every modelled update writes `updated_at := now`.
* JSON context objects are modelled by the mutual inductives
  `CtxVal`/`CtxFields` (string leaves and nested objects); a JS object
  spread `\x7b...a, ...b\x7d` is `jsSpread`.
* JavaScript strings are Lean `String`s; `toLowerCase` is `lowerStr`
  (correct on ASCII, which is all the code relies on) and
  `String.prototype.includes` is `strIncludes`.
* The external JS `RegExp` engine is a parameter
  `regexTest : String → String → Option Bool`: `regexTest pattern msg`
  is `none` when `new RegExp(pattern, "i")` (or its `test`) throws —
  an ill-formed pattern — and `some b` when the case-insensitive test
  returns `b`.
* File-system writes are assumed to succeed; the images directory is a
  `List String` of filenames where needed.
-/

namespace LogSink

/-! ## Issue states

The `state` column takes exactly the six string values below
(`'pending'`, `'open'`, `'in_progress'`, `'done'`, `'revert'`,
`'closed'`). -/

inductive LogState where
  | pending
  | open_
  | in_progress
  | done
  | revert
  | closed
deriving DecidableEq

/-! ## JSON context values -/

mutual
/-- A JSON value stored in an issue's `context` column: a string leaf or a
nested object.  (The code also stores other JSON leaves; the claims under
verification only distinguish strings and objects, and every other leaf
behaves exactly like a string leaf under the operations modelled here.) -/
inductive CtxVal where
  | str (s : String)
  | obj (fields : CtxFields)
deriving DecidableEq

/-- The ordered field list of a JSON object (JS objects preserve key
insertion order). -/
inductive CtxFields where
  | nil
  | cons (key : String) (val : CtxVal) (rest : CtxFields)
deriving DecidableEq
end

/-- Look up a key in a JS object (first occurrence). -/
def lookupKey : CtxFields → String → Option CtxVal
  | .nil, _ => none
  | .cons k v rest, key => if k = key then some v else lookupKey rest key

/-- Does a JS object have a key? -/
def hasKey : CtxFields → String → Bool
  | .nil, _ => false
  | .cons k _ rest, key => k = key || hasKey rest key

def ctxAppend : CtxFields → CtxFields → CtxFields
  | .nil, b => b
  | .cons k v rest, b => .cons k v (ctxAppend rest b)

/-- Keep only the fields whose key-value pair satisfies `p`. -/
def ctxFilter (p : String → CtxVal → Bool) : CtxFields → CtxFields
  | .nil => .nil
  | .cons k v rest =>
    if p k v then .cons k v (ctxFilter p rest) else ctxFilter p rest

/-- Override every field of `a` whose key also occurs in `b` with `b`'s
value, keeping `a`'s key order. -/
def ctxOverride (a b : CtxFields) : CtxFields :=
  match a with
  | .nil => .nil
  | .cons k v rest =>
    .cons k ((lookupKey b k).getD v) (ctxOverride rest b)

/-- The JS object spread `\x7b...a, ...b\x7d`: the keys of `a` in order
(values overridden by `b` on collisions) followed by the keys of `b` not
present in `a`, in order. -/
def jsSpread (a b : CtxFields) : CtxFields :=
  ctxAppend (ctxOverride a b) (ctxFilter (fun k _ => !hasKey a k) b)

/-- Set a single key on a JS object, in place if present (`\x7b...ctx,
key: v\x7d`): when `v` is `none` the field is `undefined` and
`JSON.stringify` drops it before the object reaches the store. -/
def jsSetKey (ctx : CtxFields) (key : String) (v : Option CtxVal) : CtxFields :=
  match v with
  | some value => jsSpread ctx (.cons key value .nil)
  | none => ctxFilter (fun k _ => k != key) ctx

/-! ## String helpers -/

/-- `String.prototype.toLowerCase`, modelled characterwise (ASCII). -/
def lowerStr (s : String) : String := ⟨s.data.map Char.toLower⟩

/-- `String.prototype.includes sub`: some contiguous slice of `s` equals
`sub`. -/
def strIncludes (s sub : String) : Bool :=
  (List.range (s.data.length + 1)).any fun i =>
    (s.data.drop i).take sub.data.length = sub.data

/-- `strIncludes` decides substring containment. -/
theorem strIncludes_iff (s sub : String) :
    strIncludes s sub = true ↔
      ∃ pre post, s.data = pre ++ sub.data ++ post := by
  unfold strIncludes
  rw [List.any_eq_true]
  constructor
  · rintro ⟨i, -, h⟩
    rw [decide_eq_true_eq] at h
    have hsplit : s.data = s.data.take i ++ (s.data.drop i).take sub.data.length
        ++ (s.data.drop i).drop sub.data.length := by
      rw [List.append_assoc, List.take_append_drop, List.take_append_drop]
    rw [h] at hsplit
    exact ⟨s.data.take i, (s.data.drop i).drop sub.data.length, hsplit⟩
  · rintro ⟨pre, post, h⟩
    refine ⟨pre.length, ?_, ?_⟩
    · rw [List.mem_range, h]
      simp only [List.length_append]
      omega
    · rw [decide_eq_true_eq, h, List.append_assoc, List.drop_left]
      simp

/-! ## Blacklist service

`BlacklistService` (class `BlacklistService`, methods `isBlacklisted` and
`matchesPattern`).  The cache groups the blacklist rows by
`entry.applicationId || 'global'`, preserving row order inside each
group. -/

structure BlacklistEntry where
  id : Nat
  pattern : String
  patternType : String
  applicationId : Option String := none
  reason : Option String := none
deriving DecidableEq

/-- The cache key of an entry: `entry.applicationId || 'global'` (`null`
and the empty string are both falsy in JS). -/
def entryScope (e : BlacklistEntry) : String :=
  match e.applicationId with
  | some a => if a = "" then "global" else a
  | none => "global"

/-- `this.cache.get(key) || []`: the blacklist rows grouped under `key`,
in row order. -/
def cacheEntries (entries : List BlacklistEntry) (key : String) :
    List BlacklistEntry :=
  entries.filter fun e => entryScope e = key

/-- `BlacklistService.matchesPattern(message, pattern, patternType)`.
The `regex` arm wraps the JS `RegExp` test; a thrown exception (ill-formed
pattern) is caught and yields `false`. -/
def matchesPattern (regexTest : String → String → Option Bool)
    (message pattern patternType : String) : Bool :=
  if patternType = "exact" then message = pattern
  else if patternType = "substring" then
    strIncludes (lowerStr message) (lowerStr pattern)
  else if patternType = "regex" then (regexTest pattern message).getD false
  else strIncludes (lowerStr message) (lowerStr pattern)

/-- The result object of `BlacklistService.isBlacklisted`. -/
structure BlacklistResult where
  isBlacklisted : Bool
  matchedPattern : Option String := none
  patternType : Option String := none
  reason : Option String := none
  entryId : Option Nat := none
  scope : Option String := none
deriving DecidableEq

/-- `BlacklistService.isBlacklisted(message, applicationId)`: scan the
global group, then (when `applicationId` is truthy) the
application-specific group, returning on the first match. -/
def isBlacklisted (enabled : Bool) (regexTest : String → String → Option Bool)
    (entries : List BlacklistEntry) (message : String)
    (applicationId : Option String) : BlacklistResult :=
  if !enabled then { isBlacklisted := false }
  else
    match (cacheEntries entries "global").find?
        (fun e => matchesPattern regexTest message e.pattern e.patternType) with
    | some e =>
      { isBlacklisted := true, matchedPattern := some e.pattern,
        patternType := some e.patternType, reason := e.reason,
        entryId := some e.id, scope := some "global" }
    | none =>
      match applicationId with
      | some appId =>
        if appId = "" then { isBlacklisted := false }
        else
          match (cacheEntries entries appId).find?
              (fun e => matchesPattern regexTest message e.pattern e.patternType) with
          | some e =>
            { isBlacklisted := true, matchedPattern := some e.pattern,
              patternType := some e.patternType, reason := e.reason,
              entryId := some e.id, scope := some "application" }
          | none => { isBlacklisted := false }
      | none => { isBlacklisted := false }

/-- The specification's description of the scan: one pass over the global
group followed by the application group, returning the first matching
entry. -/
def blacklistScan (regexTest : String → String → Option Bool)
    (entries : List BlacklistEntry) (message appId : String) :
    Option BlacklistEntry :=
  (cacheEntries entries "global" ++ cacheEntries entries appId).find?
    fun e => matchesPattern regexTest message e.pattern e.patternType

/-- C4: `isBlacklisted` scans global patterns first and application-scoped
patterns second and returns the first match (its result and matched
pattern agree with the single fused scan `blacklistScan`, and a matching
global entry forces `scope = "global"`); an `exact` pattern matches only
on string equality, a `substring` pattern matches by case-insensitive
containment, and an ill-formed `regex` pattern (one the `RegExp` engine
rejects) never matches. -/
theorem isBlacklisted_scan_and_pattern_semantics
    (regexTest : String → String → Option Bool) (entries : List BlacklistEntry)
    (message appId : String) (happ : appId ≠ "") :
    ((isBlacklisted true regexTest entries message (some appId)).isBlacklisted
        = (blacklistScan regexTest entries message appId).isSome)
    ∧ ((isBlacklisted true regexTest entries message (some appId)).matchedPattern
        = (blacklistScan regexTest entries message appId).map fun e => e.pattern)
    ∧ (∀ e ∈ cacheEntries entries "global",
        matchesPattern regexTest message e.pattern e.patternType = true →
        (isBlacklisted true regexTest entries message (some appId)).scope
          = some "global")
    ∧ (∀ p, matchesPattern regexTest message p "exact" = true ↔ message = p)
    ∧ (∀ p, matchesPattern regexTest message p "substring" = true ↔
        ∃ pre post, (lowerStr message).data = pre ++ (lowerStr p).data ++ post)
    ∧ (∀ p, regexTest p message = none →
        matchesPattern regexTest message p "regex" = false) := by
  have hscan : blacklistScan regexTest entries message appId
      = ((cacheEntries entries "global").find?
          (fun e => matchesPattern regexTest message e.pattern e.patternType)).or
        ((cacheEntries entries appId).find?
          (fun e => matchesPattern regexTest message e.pattern e.patternType)) :=
    List.find?_append
  refine ⟨?_, ?_, ?_, ?_, ?_, ?_⟩
  · rw [hscan]
    unfold isBlacklisted
    cases hg : (cacheEntries entries "global").find?
        (fun e => matchesPattern regexTest message e.pattern e.patternType) with
    | some e => simp
    | none =>
      simp only [Bool.not_true, Bool.false_eq_true, if_false, Option.or]
      rw [if_neg happ]
      cases ha : (cacheEntries entries appId).find?
          (fun e => matchesPattern regexTest message e.pattern e.patternType) <;>
        simp
  · rw [hscan]
    unfold isBlacklisted
    cases hg : (cacheEntries entries "global").find?
        (fun e => matchesPattern regexTest message e.pattern e.patternType) with
    | some e => simp
    | none =>
      simp only [Bool.not_true, Bool.false_eq_true, if_false, Option.or]
      rw [if_neg happ]
      cases ha : (cacheEntries entries appId).find?
          (fun e => matchesPattern regexTest message e.pattern e.patternType) <;>
        simp
  · intro e he hmatch
    have hsome : ((cacheEntries entries "global").find?
        (fun e => matchesPattern regexTest message e.pattern e.patternType)).isSome
          = true :=
      List.find?_isSome.mpr ⟨e, he, hmatch⟩
    unfold isBlacklisted
    cases hg : (cacheEntries entries "global").find?
        (fun e => matchesPattern regexTest message e.pattern e.patternType) with
    | some e' => simp
    | none => rw [hg] at hsome; simp at hsome
  · intro p
    simp [matchesPattern]
  · intro p
    rw [show matchesPattern regexTest message p "substring"
        = strIncludes (lowerStr message) (lowerStr p) from rfl]
    exact strIncludes_iff _ _
  · intro p hill
    rw [show matchesPattern regexTest message p "regex"
        = (regexTest p message).getD false from rfl, hill]
    rfl

/-- Concrete instantiation of `isBlacklisted_scan_and_pattern_semantics`:
a global substring pattern, an application scope, and an always-throwing
regex engine. -/
theorem isBlacklisted_scan_and_pattern_semantics_witness :
    ("app" ≠ "")
    ∧ ((isBlacklisted true (fun _ _ => none)
          [{ id := 1, pattern := "Spam", patternType := "substring" }]
          "this is SPAM indeed" (some "app")).isBlacklisted
        = (blacklistScan (fun _ _ => none)
          [{ id := 1, pattern := "Spam", patternType := "substring" }]
          "this is SPAM indeed" "app").isSome) :=
  ⟨by decide,
    (isBlacklisted_scan_and_pattern_semantics (fun _ _ => none)
      [{ id := 1, pattern := "Spam", patternType := "substring" }]
      "this is SPAM indeed" "app" (by decide)).1⟩

/-- C10: a blacklist entry whose `patternType` is none of `exact`,
`substring`, `regex` falls back to case-insensitive substring
containment (rather than never matching). -/
theorem matchesPattern_unknown_type_fallback
    (regexTest : String → String → Option Bool) (message p t : String)
    (h1 : t ≠ "exact") (h2 : t ≠ "substring") (h3 : t ≠ "regex") :
    matchesPattern regexTest message p t = true ↔
      ∃ pre post, (lowerStr message).data = pre ++ (lowerStr p).data ++ post := by
  rw [show matchesPattern regexTest message p t
      = strIncludes (lowerStr message) (lowerStr p) by
    unfold matchesPattern
    rw [if_neg h1, if_neg h2, if_neg h3]]
  exact strIncludes_iff _ _

/-- Concrete instantiation of `matchesPattern_unknown_type_fallback`: the
unknown type `"glob"` blocks a message containing the pattern. -/
theorem matchesPattern_unknown_type_fallback_witness :
    ("glob" ≠ "exact") ∧ ("glob" ≠ "substring") ∧ ("glob" ≠ "regex")
    ∧ (∃ pre post, (lowerStr "xx TimeOut yy").data
        = pre ++ (lowerStr "TIMEout").data ++ post) :=
  ⟨by decide, by decide, by decide,
    (matchesPattern_unknown_type_fallback (fun _ _ => some true)
      "xx TimeOut yy" "TIMEout" "glob" (by decide) (by decide) (by decide)).mp
      (by decide)⟩

/-! ## Issues and the logs table -/

/-- A row of the `logs` table (schema in the store setup script). -/
structure LogEntry where
  id : String
  application_id : String
  timestamp : Nat
  message : String
  context : CtxFields := .nil
  screenshots : List String := []
  state : LogState
  llm_message : Option String := none
  git_commit : Option String := none
  statistics : Option CtxVal := none
  reopen_count : Nat := 0
  started_at : Option Nat := none
  completed_at : Option Nat := none
  reopened_at : Option Nat := none
  reverted_at : Option Nat := none
  revert_reason : Option String := none
  embedding : Option (List Int) := none
  embedding_model : Option String := none
  created_at : Nat := 0
  updated_at : Nat := 0
deriving DecidableEq

/-- `SELECT * FROM logs WHERE id = $1` (first row). -/
def findById (store : List LogEntry) (id : String) : Option LogEntry :=
  store.find? fun r => r.id = id

/-- `UPDATE logs SET ... WHERE id = $1`: apply `f` to the matching rows;
the second component is `rowCount > 0`. -/
def sqlUpdateById (store : List LogEntry) (id : String)
    (f : LogEntry → LogEntry) : List LogEntry × Bool :=
  (store.map fun r => if r.id = id then f r else r,
   store.any fun r => r.id = id)

/-- JS string truthiness: `a || b` where the empty string is falsy. -/
def jsOrStr (a b : Option String) : Option String :=
  match a with
  | some s => if s = "" then b else some s
  | none => b

/-- `v || null` for a JSON value (only the empty string among our values
is falsy; objects are always truthy). -/
def jsTruthyVal (v : Option CtxVal) : Option CtxVal :=
  match v with
  | some (.str "") => none
  | x => x

/-! Row-transformation functions of the `LogRepository` update statements
(the store trigger refreshes `updated_at` on every update). -/

def applyInProgress (now : Nat) (r : LogEntry) : LogEntry :=
  { r with state := .in_progress, started_at := some now, updated_at := now }

def applyDone (llmMessage : String) (gitCommit : Option String)
    (statistics : Option CtxVal) (now : Nat) (r : LogEntry) : LogEntry :=
  { r with
    state := .done, llm_message := some llmMessage,
    git_commit := gitCommit,
    statistics := some (statistics.getD (.obj .nil)),
    completed_at := some now, updated_at := now }

def applyRevert (revertReason : Option String) (now : Nat) (r : LogEntry) :
    LogEntry :=
  { r with
    state := .revert, revert_reason := revertReason,
    reverted_at := some now, updated_at := now }

def applyOpen (context : CtxFields) (now : Nat) (r : LogEntry) : LogEntry :=
  { r with state := .open_, context := context, updated_at := now }

def applyClosedState (now : Nat) (r : LogEntry) : LogEntry :=
  { r with state := .closed, updated_at := now }

def applyReopen (timestamp : Nat) (context : CtxFields)
    (screenshots : List String) (now : Nat) (r : LogEntry) : LogEntry :=
  { r with
    state := .open_, timestamp := timestamp, context := context,
    screenshots := screenshots, reopened_at := some now,
    reopen_count := r.reopen_count + 1, updated_at := now }

def updateToInProgress (store : List LogEntry) (id : String) (now : Nat) :
    List LogEntry × Bool :=
  sqlUpdateById store id (applyInProgress now)

def updateToDone (store : List LogEntry) (id : String) (llmMessage : String)
    (gitCommit : Option String) (statistics : Option CtxVal) (now : Nat) :
    List LogEntry × Bool :=
  sqlUpdateById store id (applyDone llmMessage gitCommit statistics now)

def updateToRevert (store : List LogEntry) (id : String)
    (revertReason : Option String) (now : Nat) : List LogEntry × Bool :=
  sqlUpdateById store id (applyRevert revertReason now)

def updateToOpen (store : List LogEntry) (id : String) (context : CtxFields)
    (now : Nat) : List LogEntry × Bool :=
  sqlUpdateById store id (applyOpen context now)

def updateState (store : List LogEntry) (id : String) (newState : LogState)
    (now : Nat) : List LogEntry × Bool :=
  sqlUpdateById store id fun r => { r with state := newState, updated_at := now }

def reopenExisting (store : List LogEntry) (id : String) (timestamp : Nat)
    (context : CtxFields) (screenshots : List String) (now : Nat) :
    List LogEntry × Bool :=
  sqlUpdateById store id (applyReopen timestamp context screenshots now)

/-! ## LogService.updateLogState -/

/-- The `metadata` argument of `LogService.updateLogState`. -/
structure UpdateMeta where
  message : Option String := none
  error : Option String := none
  git_commit : Option String := none
  statistics : Option CtxVal := none
  revertReason : Option String := none
  rejectReason : Option String := none
deriving DecidableEq

/-- The object returned by `LogService.updateLogState`. -/
structure UpdateResult where
  success : Bool
  error : Option String := none
  entryId : Option String := none
  state : Option LogState := none
  entry : Option LogEntry := none
deriving DecidableEq

/-- The `switch (newState)` body of `updateLogState`: the guarded store
mutation for one requested state.  A guard failure leaves the store
untouched and reports `false`; the `default` arm (`pending`) is handled
by the caller.  (The `closed` arm also unlinks the entry's screenshot
files; file effects are modelled separately.) -/
def updateStep (store : List LogEntry) (entryId : String) (log : LogEntry)
    (newState : LogState) (md : UpdateMeta) (now : Nat) :
    List LogEntry × Bool :=
  match newState with
  | .pending => (store, false)
  | .in_progress =>
    if log.state = .open_ ∨ log.state = .revert then
      updateToInProgress store entryId now
    else (store, false)
  | .done =>
    if log.state = .open_ ∨ log.state = .in_progress then
      updateToDone store entryId ((jsOrStr md.message md.error).getD "")
        (jsOrStr md.git_commit none) (jsTruthyVal md.statistics) now
    else (store, false)
  | .revert =>
    if log.state = .done then
      updateToRevert store entryId (jsOrStr md.revertReason none) now
    else (store, false)
  | .open_ =>
    if log.state ≠ .open_ then
      updateToOpen store entryId
        (jsSetKey log.context "rejectReason" (md.rejectReason.map CtxVal.str)) now
    else (store, false)
  | .closed =>
    if log.state ≠ .closed then updateState store entryId .closed now
    else (store, false)

/-- `LogService.updateLogState(applicationId, entryId, newState, metadata)`.
Returns the JS result object together with the logs table after the call. -/
def updateLogState (store : List LogEntry) (applicationId entryId : String)
    (newState : LogState) (md : UpdateMeta) (now : Nat) :
    UpdateResult × List LogEntry :=
  match findById store entryId with
  | none => ({ success := false, error := some "Log entry not found" }, store)
  | some log =>
    if log.application_id ≠ applicationId then
      ({ success := false, error := some "Log entry not found" }, store)
    else if newState = .pending then
      ({ success := false, error := some "Invalid state" }, store)
    else
      ({ success := (updateStep store entryId log newState md now).2,
         entryId := some entryId, state := some newState,
         entry := if (updateStep store entryId log newState md now).2 then
             findById (updateStep store entryId log newState md now).1 entryId
           else none },
       (updateStep store entryId log newState md now).1)

/-- The specification's transition table (§4.1), restricted to the five
requestable target states: `in_progress` from `open`/`revert`; `done`
from `open`/`in_progress`; `revert` from `done`; `open` from any state
other than `open`; `closed` from any state other than `closed`. -/
def specAllowed (cur req : LogState) : Bool :=
  match req with
  | .in_progress => cur = .open_ || cur = .revert
  | .done => cur = .open_ || cur = .in_progress
  | .revert => cur = .done
  | .open_ => cur ≠ .open_
  | .closed => cur ≠ .closed
  | .pending => false

/-- The row transformation a successful `updateLogState` call applies to
the target row. -/
def transApply (newState : LogState) (log : LogEntry) (md : UpdateMeta)
    (now : Nat) (r : LogEntry) : LogEntry :=
  match newState with
  | .pending => r
  | .in_progress => applyInProgress now r
  | .done => applyDone ((jsOrStr md.message md.error).getD "")
      (jsOrStr md.git_commit none) (jsTruthyVal md.statistics) now r
  | .revert => applyRevert (jsOrStr md.revertReason none) now r
  | .open_ => applyOpen
      (jsSetKey log.context "rejectReason" (md.rejectReason.map CtxVal.str)) now r
  | .closed => { r with state := .closed, updated_at := now }

theorem transApply_id (newState : LogState) (log : LogEntry) (md : UpdateMeta)
    (now : Nat) (r : LogEntry) :
    (transApply newState log md now r).id = r.id := by
  cases newState <;> rfl

theorem transApply_state (newState : LogState) (log : LogEntry)
    (md : UpdateMeta) (now : Nat) (r : LogEntry) (h : newState ≠ .pending) :
    (transApply newState log md now r).state = newState := by
  cases newState <;> first | rfl | exact absurd rfl h

theorem transApply_reopen_count (newState : LogState) (log : LogEntry)
    (md : UpdateMeta) (now : Nat) (r : LogEntry) :
    (transApply newState log md now r).reopen_count = r.reopen_count := by
  cases newState <;> rfl

theorem transApply_application_id (newState : LogState) (log : LogEntry)
    (md : UpdateMeta) (now : Nat) (r : LogEntry) :
    (transApply newState log md now r).application_id = r.application_id := by
  cases newState <;> rfl

theorem find?_map_congr {α : Type} (l : List α) (p : α → Bool) (g : α → α)
    (h : ∀ r, p (g r) = p r) : (l.map g).find? p = (l.find? p).map g := by
  induction l with
  | nil => rfl
  | cons x xs ih =>
    simp only [List.map_cons, List.find?_cons]
    rw [h x]
    cases hx : p x <;> simp [ih]

theorem findById_some_any (store : List LogEntry) (id : String) (e : LogEntry)
    (hfind : findById store id = some e) :
    (store.any fun r => r.id = id) = true := by
  rcases List.find?_eq_some.mp hfind with ⟨hp, as, bs, rfl, -⟩
  simp only [List.any_append, List.any_cons]
  rw [hp]
  simp

theorem findById_sqlUpdateById (store : List LogEntry) (id : String)
    (f : LogEntry → LogEntry) (hf : ∀ r, (f r).id = r.id) (e : LogEntry)
    (hfind : findById store id = some e) :
    findById (sqlUpdateById store id f).1 id = some (f e) := by
  have hg : ∀ r : LogEntry,
      (decide ((if r.id = id then f r else r).id = id)) = decide (r.id = id) := by
    intro r
    by_cases hr : r.id = id
    · rw [if_pos hr]
      rw [hf r]
    · rw [if_neg hr]
  unfold findById at hfind ⊢
  unfold sqlUpdateById
  rw [find?_map_congr _ _ _ hg, hfind]
  have he : e.id = id := by
    have := List.find?_some hfind
    exact of_decide_eq_true this
  show some (if e.id = id then f e else e) = some (f e)
  rw [if_pos he]

theorem updateStep_success (store : List LogEntry) (entryId : String)
    (log : LogEntry) (newState : LogState) (md : UpdateMeta) (now : Nat) :
    (updateStep store entryId log newState md now).2
      = (specAllowed log.state newState && store.any fun r => r.id = entryId) := by
  cases newState with
  | pending =>
    show false = (specAllowed log.state .pending && _)
    rw [show specAllowed log.state .pending = false from rfl, Bool.false_and]
  | in_progress =>
    by_cases h : log.state = .open_ ∨ log.state = .revert
    · have hs : specAllowed log.state .in_progress = true := by
        rcases h with h | h <;> rw [h] <;> rfl
      unfold updateStep
      rw [if_pos h, hs, Bool.true_and]
      rfl
    · have hs : specAllowed log.state .in_progress = false := by
        cases hst : log.state with
        | open_ => rw [hst] at h; exact absurd (Or.inl rfl) h
        | revert => rw [hst] at h; exact absurd (Or.inr rfl) h
        | _ => rfl
      unfold updateStep
      rw [if_neg h, hs, Bool.false_and]
  | done =>
    by_cases h : log.state = .open_ ∨ log.state = .in_progress
    · have hs : specAllowed log.state .done = true := by
        rcases h with h | h <;> rw [h] <;> rfl
      unfold updateStep
      rw [if_pos h, hs, Bool.true_and]
      rfl
    · have hs : specAllowed log.state .done = false := by
        cases hst : log.state with
        | open_ => rw [hst] at h; exact absurd (Or.inl rfl) h
        | in_progress => rw [hst] at h; exact absurd (Or.inr rfl) h
        | _ => rfl
      unfold updateStep
      rw [if_neg h, hs, Bool.false_and]
  | revert =>
    by_cases h : log.state = .done
    · have hs : specAllowed log.state .revert = true := by rw [h]; rfl
      unfold updateStep
      rw [if_pos h, hs, Bool.true_and]
      rfl
    · have hs : specAllowed log.state .revert = false := by
        cases hst : log.state with
        | done => rw [hst] at h; exact absurd rfl h
        | _ => rfl
      unfold updateStep
      rw [if_neg h, hs, Bool.false_and]
  | open_ =>
    by_cases h : log.state ≠ .open_
    · have hs : specAllowed log.state .open_ = true := by
        show (decide ¬ (log.state = .open_)) = true
        exact decide_eq_true h
      unfold updateStep
      rw [if_pos h, hs, Bool.true_and]
      rfl
    · push_neg at h
      have hs : specAllowed log.state .open_ = false := by
        rw [h]; rfl
      rw [show updateStep store entryId log .open_ md now
          = if log.state ≠ .open_ then
              updateToOpen store entryId
                (jsSetKey log.context "rejectReason"
                  (md.rejectReason.map CtxVal.str)) now
            else (store, false) from rfl,
        if_neg (by rw [h]; exact fun hne => hne rfl), hs, Bool.false_and]
  | closed =>
    by_cases h : log.state ≠ .closed
    · have hs : specAllowed log.state .closed = true := by
        show (decide ¬ (log.state = .closed)) = true
        exact decide_eq_true h
      unfold updateStep
      rw [if_pos h, hs, Bool.true_and]
      rfl
    · push_neg at h
      have hs : specAllowed log.state .closed = false := by
        rw [h]; rfl
      rw [show updateStep store entryId log .closed md now
          = if log.state ≠ .closed then updateState store entryId .closed now
            else (store, false) from rfl,
        if_neg (by rw [h]; exact fun hne => hne rfl), hs, Bool.false_and]

theorem updateStep_fail_store (store : List LogEntry) (entryId : String)
    (log : LogEntry) (newState : LogState) (md : UpdateMeta) (now : Nat)
    (h : specAllowed log.state newState = false) :
    (updateStep store entryId log newState md now).1 = store := by
  cases newState with
  | pending => rfl
  | in_progress =>
    have hng : ¬ (log.state = .open_ ∨ log.state = .revert) := by
      rintro (hs | hs) <;> rw [hs] at h <;> exact absurd h (by decide)
    unfold updateStep
    rw [if_neg hng]
  | done =>
    have hng : ¬ (log.state = .open_ ∨ log.state = .in_progress) := by
      rintro (hs | hs) <;> rw [hs] at h <;> exact absurd h (by decide)
    unfold updateStep
    rw [if_neg hng]
  | revert =>
    have hng : ¬ log.state = .done := by
      intro hs; rw [hs] at h; exact absurd h (by decide)
    unfold updateStep
    rw [if_neg hng]
  | open_ =>
    have hng : ¬ log.state ≠ .open_ := by
      intro hs
      have : specAllowed log.state .open_ = true := by
        show (decide ¬ (log.state = .open_)) = true
        exact decide_eq_true hs
      rw [this] at h
      exact absurd h (by decide)
    unfold updateStep
    rw [if_neg hng]
  | closed =>
    have hng : ¬ log.state ≠ .closed := by
      intro hs
      have : specAllowed log.state .closed = true := by
        show (decide ¬ (log.state = .closed)) = true
        exact decide_eq_true hs
      rw [this] at h
      exact absurd h (by decide)
    unfold updateStep
    rw [if_neg hng]

theorem updateStep_store (store : List LogEntry) (entryId : String)
    (log : LogEntry) (newState : LogState) (md : UpdateMeta) (now : Nat)
    (h : specAllowed log.state newState = true) :
    (updateStep store entryId log newState md now).1
      = (sqlUpdateById store entryId (transApply newState log md now)).1 := by
  cases newState with
  | pending =>
    rw [show specAllowed log.state .pending = false from rfl] at h
    exact absurd h (by decide)
  | in_progress =>
    have hguard : log.state = .open_ ∨ log.state = .revert := by
      cases hst : log.state with
      | open_ => exact Or.inl rfl
      | revert => exact Or.inr rfl
      | _ => rw [hst] at h; exact absurd h (by decide)
    unfold updateStep
    rw [if_pos hguard]
    rfl
  | done =>
    have hguard : log.state = .open_ ∨ log.state = .in_progress := by
      cases hst : log.state with
      | open_ => exact Or.inl rfl
      | in_progress => exact Or.inr rfl
      | _ => rw [hst] at h; exact absurd h (by decide)
    unfold updateStep
    rw [if_pos hguard]
    rfl
  | revert =>
    have hguard : log.state = .done := by
      cases hst : log.state with
      | done => rfl
      | _ => rw [hst] at h; exact absurd h (by decide)
    unfold updateStep
    rw [if_pos hguard]
    rfl
  | open_ =>
    have hguard : log.state ≠ .open_ := by
      intro hs; rw [hs] at h; exact absurd h (by decide)
    unfold updateStep
    rw [if_pos hguard]
    rfl
  | closed =>
    have hguard : log.state ≠ .closed := by
      intro hs; rw [hs] at h; exact absurd h (by decide)
    unfold updateStep
    rw [if_pos hguard]
    rfl

/-- A successful `updateLogState` call: the guard passes, the call reports
success, and the target row is rewritten by `transApply`. -/
theorem updateLogState_success_step (store : List LogEntry) (a id : String)
    (ns : LogState) (md : UpdateMeta) (now : Nat) (e : LogEntry)
    (hfind : findById store id = some e) (happ : e.application_id = a)
    (hallow : specAllowed e.state ns = true) :
    (updateLogState store a id ns md now).1.success = true
    ∧ (updateLogState store a id ns md now).2
        = (sqlUpdateById store id (transApply ns e md now)).1
    ∧ findById (updateLogState store a id ns md now).2 id
        = some (transApply ns e md now e) := by
  have hns : ns ≠ .pending := by
    intro hp
    rw [hp, show specAllowed e.state .pending = false from rfl] at hallow
    exact absurd hallow (by decide)
  have happne : ¬ e.application_id ≠ a := by simpa using happ
  unfold updateLogState
  rw [hfind]
  simp only [if_neg happne, if_neg hns]
  have hsucc := updateStep_success store id e ns md now
  rw [hallow, Bool.true_and, findById_some_any store id e hfind] at hsucc
  have hstore := updateStep_store store id e ns md now hallow
  refine ⟨hsucc, hstore, ?_⟩
  rw [hstore]
  exact findById_sqlUpdateById store id _ (fun r => transApply_id ns e md now r)
    e hfind

/-- C1: for an existing issue, `updateLogState` succeeds exactly when the
(current state, requested state) pair is in the specification's
transition table (`in_progress` from `open`/`revert`; `done` from
`open`/`in_progress`; `revert` from `done`; `open` from any state other
than `open`; `closed` from any state other than `closed`); any other
request is rejected (`success = false`, the precondition-failed signal)
and leaves the whole logs table — in particular the issue's state —
unchanged, while a successful request moves the issue to the requested
state. -/
theorem updateLogState_transition_table (store : List LogEntry)
    (a id : String) (ns : LogState) (md : UpdateMeta) (now : Nat)
    (e : LogEntry) (hfind : findById store id = some e)
    (happ : e.application_id = a) :
    ((updateLogState store a id ns md now).1.success = true
      ↔ specAllowed e.state ns = true)
    ∧ ((updateLogState store a id ns md now).1.success = false →
        (updateLogState store a id ns md now).2 = store)
    ∧ ((updateLogState store a id ns md now).1.success = true →
        ∃ e', findById (updateLogState store a id ns md now).2 id = some e'
          ∧ e'.state = ns) := by
  have happne : ¬ e.application_id ≠ a := by simpa using happ
  by_cases hallow : specAllowed e.state ns = true
  · obtain ⟨h1, h2, h3⟩ :=
      updateLogState_success_step store a id ns md now e hfind happ hallow
    have hns : ns ≠ .pending := by
      intro hp
      rw [hp, show specAllowed e.state .pending = false from rfl] at hallow
      exact absurd hallow (by decide)
    refine ⟨by rw [h1, hallow], ?_, ?_⟩
    · intro hfail; rw [h1] at hfail; exact absurd hfail (by simp)
    · intro _
      exact ⟨transApply ns e md now e, h3, transApply_state ns e md now e hns⟩
  · rw [Bool.not_eq_true] at hallow
    by_cases hns : ns = .pending
    · subst hns
      unfold updateLogState
      rw [hfind]
      simp only [if_neg happne, if_pos rfl]
      exact ⟨Iff.rfl, fun _ => rfl, fun h => nomatch h⟩
    · unfold updateLogState
      rw [hfind]
      simp only [if_neg happne, if_neg hns]
      have hsucc := updateStep_success store id e ns md now
      rw [hallow, Bool.false_and] at hsucc
      have hstore := updateStep_fail_store store id e ns md now hallow
      refine ⟨?_, fun _ => hstore, ?_⟩
      · show (updateStep store id e ns md now).2 = true
          ↔ specAllowed e.state ns = true
        rw [hsucc, hallow]
      · show (updateStep store id e ns md now).2 = true → _
        intro h
        rw [hsucc] at h
        exact absurd h (by simp)

/-- A sample `done` issue used to instantiate lifecycle theorems. -/
def doneIssueA : LogEntry :=
  { id := "e1", application_id := "A", timestamp := 3, message := "m",
    state := .done }

/-- Concrete instantiation of `updateLogState_transition_table`: a `done`
issue, requested `revert`, succeeds and moves to `revert`. -/
theorem updateLogState_transition_table_witness :
    (findById [doneIssueA] "e1" = some doneIssueA)
    ∧ (doneIssueA.application_id = "A")
    ∧ ((updateLogState [doneIssueA] "A" "e1" .revert {} 7).1.success = true
      ↔ specAllowed LogState.done .revert = true) :=
  ⟨by decide, by decide,
    (updateLogState_transition_table [doneIssueA] "A" "e1" .revert {} 7
      doneIssueA (by decide) (by decide)).1⟩

/-! ## HTTP route PATCH /log/:applicationId/:entryId/in-progress -/

/-- The status/body pair a route handler sends. -/
structure RouteResponse where
  status : Nat
  error : Option String := none
deriving DecidableEq

/-- `router.patch('/log/:applicationId/:entryId/in-progress', ...)`: call
`updateLogState(..., 'in_progress')` with no metadata; on failure respond
`404` with `result.error || 'Log entry not found or not in open/revert
state'`, on success respond `200`. -/
def patchInProgressRoute (store : List LogEntry) (applicationId entryId : String)
    (now : Nat) : RouteResponse × List LogEntry :=
  if (updateLogState store applicationId entryId .in_progress {} now).1.success then
    ({ status := 200 },
     (updateLogState store applicationId entryId .in_progress {} now).2)
  else
    ({ status := 404,
       error := some
         ((updateLogState store applicationId entryId .in_progress {} now).1.error.getD
           "Log entry not found or not in open/revert state") },
     (updateLogState store applicationId entryId .in_progress {} now).2)

/-- C3, counterexample: an issue that exists in state `done` (so neither
`open` nor `revert`) gets HTTP status `404` from the in-progress route,
not the `400` the claim requires for the wrong-state case. -/
theorem patchInProgress_wrong_state_is_404_cex :
    (findById [doneIssueA] "e1" = some doneIssueA)
    ∧ doneIssueA.state ≠ .open_ ∧ doneIssueA.state ≠ .revert
    ∧ (patchInProgressRoute [doneIssueA] "A" "e1" 9).1.status = 404
    ∧ (patchInProgressRoute [doneIssueA] "A" "e1" 9).1.status ≠ 400 := by
  decide

/-- C3 (amended): the in-progress route answers `404` both when the issue
does not exist and when it exists in a state other than `open`/`revert`;
the two cases differ only in the error message (`"Log entry not found"`
versus the combined fallback message), and an issue in `open`/`revert`
gets `200`. -/
theorem patchInProgress_status_codes (store : List LogEntry)
    (a id : String) (now : Nat) :
    (findById store id = none →
      (patchInProgressRoute store a id now).1
        = { status := 404, error := some "Log entry not found" })
    ∧ (∀ e, findById store id = some e → e.application_id = a →
        e.state ≠ .open_ → e.state ≠ .revert →
        (patchInProgressRoute store a id now).1
          = { status := 404,
              error := some "Log entry not found or not in open/revert state" })
    ∧ (∀ e, findById store id = some e → e.application_id = a →
        (e.state = .open_ ∨ e.state = .revert) →
        (patchInProgressRoute store a id now).1.status = 200) := by
  refine ⟨?_, ?_, ?_⟩
  · intro hnone
    have hres : (updateLogState store a id .in_progress {} now).1
        = { success := false, error := some "Log entry not found" } := by
      unfold updateLogState
      rw [hnone]
    unfold patchInProgressRoute
    rw [hres]
    rfl
  · intro e hfind happ hno hnr
    have happne : ¬ e.application_id ≠ a := by simpa using happ
    have hallow : specAllowed e.state .in_progress = false := by
      cases hst : e.state with
      | open_ => exact absurd hst hno
      | revert => exact absurd hst hnr
      | _ => rfl
    have hsucc := updateStep_success store id e .in_progress {} now
    rw [hallow, Bool.false_and] at hsucc
    have hres : (updateLogState store a id .in_progress {} now).1
        = { success := false, entryId := some id,
            state := some LogState.in_progress, entry := none } := by
      unfold updateLogState
      rw [hfind]
      simp only [if_neg happne]
      rw [if_neg (by decide : ¬ (LogState.in_progress = .pending))]
      rw [hsucc]
      rfl
    unfold patchInProgressRoute
    rw [hres]
    rfl
  · intro e hfind happ hor
    have hallow : specAllowed e.state .in_progress = true := by
      rcases hor with h | h <;> rw [h] <;> rfl
    have h1 := (updateLogState_success_step store a id .in_progress {} now e
      hfind happ hallow).1
    unfold patchInProgressRoute
    rw [if_pos h1]

/-- Concrete instantiation of `patchInProgress_status_codes`: the missing
issue answers `404` with the not-found message. -/
theorem patchInProgress_status_codes_witness :
    (findById [doneIssueA] "nope" = none)
    ∧ (patchInProgressRoute [doneIssueA] "A" "nope" 4).1
        = { status := 404, error := some "Log entry not found" } :=
  ⟨by decide,
    (patchInProgress_status_codes [doneIssueA] "A" "nope" 4).1 (by decide)⟩

/-! ## The lifecycle round trip (C9) -/

/-- Run a list of `(requested state, metadata, now)` lifecycle requests on
one issue in sequence; collect each call's `success` and the final
table. -/
def runRequests (store : List LogEntry) (a id : String) :
    List (LogState × UpdateMeta × Nat) → List Bool × List LogEntry
  | [] => ([], store)
  | (ns, md, now) :: rest =>
    ((updateLogState store a id ns md now).1.success
        :: (runRequests (updateLogState store a id ns md now).2 a id rest).1,
     (runRequests (updateLogState store a id ns md now).2 a id rest).2)

/-- C9: on an issue in state `open`, the request sequence in-progress,
done, revert, in-progress, done succeeds at every step and leaves the
issue in state `done` with `reopen_count` unchanged (revert is not a
reopen). -/
theorem lifecycle_roundtrip_reopen_count (store : List LogEntry)
    (a id : String) (e : LogEntry) (md1 md2 md3 md4 md5 : UpdateMeta)
    (n1 n2 n3 n4 n5 : Nat) (hfind : findById store id = some e)
    (happ : e.application_id = a) (hopen : e.state = .open_) :
    (runRequests store a id
        [(.in_progress, md1, n1), (.done, md2, n2), (.revert, md3, n3),
         (.in_progress, md4, n4), (.done, md5, n5)]).1
      = [true, true, true, true, true]
    ∧ ∃ e5, findById (runRequests store a id
        [(.in_progress, md1, n1), (.done, md2, n2), (.revert, md3, n3),
         (.in_progress, md4, n4), (.done, md5, n5)]).2 id = some e5
      ∧ e5.state = .done ∧ e5.reopen_count = e.reopen_count := by
  obtain ⟨h1s, -, h1f⟩ := updateLogState_success_step store a id
    .in_progress md1 n1 e hfind happ (by rw [hopen]; rfl)
  set e1 : LogEntry := transApply .in_progress e md1 n1 e with he1
  have e1app : e1.application_id = a := by
    rw [he1, transApply_application_id]; exact happ
  have e1st : e1.state = .in_progress := by
    rw [he1]; exact transApply_state _ _ _ _ _ (by decide)
  obtain ⟨h2s, -, h2f⟩ := updateLogState_success_step _ a id
    .done md2 n2 e1 h1f e1app (by rw [e1st]; rfl)
  set e2 : LogEntry := transApply .done e1 md2 n2 e1 with he2
  have e2app : e2.application_id = a := by
    rw [he2, transApply_application_id]; exact e1app
  have e2st : e2.state = .done := by
    rw [he2]; exact transApply_state _ _ _ _ _ (by decide)
  obtain ⟨h3s, -, h3f⟩ := updateLogState_success_step _ a id
    .revert md3 n3 e2 h2f e2app (by rw [e2st]; rfl)
  set e3 : LogEntry := transApply .revert e2 md3 n3 e2 with he3
  have e3app : e3.application_id = a := by
    rw [he3, transApply_application_id]; exact e2app
  have e3st : e3.state = .revert := by
    rw [he3]; exact transApply_state _ _ _ _ _ (by decide)
  obtain ⟨h4s, -, h4f⟩ := updateLogState_success_step _ a id
    .in_progress md4 n4 e3 h3f e3app (by rw [e3st]; rfl)
  set e4 : LogEntry := transApply .in_progress e3 md4 n4 e3 with he4
  have e4app : e4.application_id = a := by
    rw [he4, transApply_application_id]; exact e3app
  have e4st : e4.state = .in_progress := by
    rw [he4]; exact transApply_state _ _ _ _ _ (by decide)
  obtain ⟨h5s, -, h5f⟩ := updateLogState_success_step _ a id
    .done md5 n5 e4 h4f e4app (by rw [e4st]; rfl)
  set e5 : LogEntry := transApply .done e4 md5 n5 e4 with he5
  have e5st : e5.state = .done := by
    rw [he5]; exact transApply_state _ _ _ _ _ (by decide)
  have e5rc : e5.reopen_count = e.reopen_count := by
    rw [he5, transApply_reopen_count, he4, transApply_reopen_count,
      he3, transApply_reopen_count, he2, transApply_reopen_count,
      he1, transApply_reopen_count]
  constructor
  · simp only [runRequests, h1s, h2s, h3s, h4s, h5s]
  · refine ⟨e5, ?_, e5st, e5rc⟩
    show findById _ id = _
    simp only [runRequests]
    exact h5f

/-- A sample `open` issue used to instantiate lifecycle theorems. -/
def openIssueB : LogEntry :=
  { id := "e2", application_id := "B", timestamp := 1, message := "m2",
    state := .open_, reopen_count := 4 }

/-- Concrete instantiation of `lifecycle_roundtrip_reopen_count` on a
single-row table. -/
theorem lifecycle_roundtrip_reopen_count_witness :
    (findById [openIssueB] "e2" = some openIssueB)
    ∧ (openIssueB.application_id = "B") ∧ (openIssueB.state = .open_)
    ∧ ((runRequests [openIssueB] "B" "e2"
        [(.in_progress, {}, 11), (.done, {}, 12), (.revert, {}, 13),
         (.in_progress, {}, 14), (.done, {}, 15)]).1
      = [true, true, true, true, true])
    ∧ (∃ e5, findById (runRequests [openIssueB] "B" "e2"
        [(.in_progress, {}, 11), (.done, {}, 12), (.revert, {}, 13),
         (.in_progress, {}, 14), (.done, {}, 15)]).2 "e2" = some e5
      ∧ e5.state = .done ∧ e5.reopen_count = openIssueB.reopen_count) :=
  ⟨by decide, by decide, by decide,
    (lifecycle_roundtrip_reopen_count [openIssueB] "B" "e2" openIssueB
      {} {} {} {} {} 11 12 13 14 15 (by decide) (by decide) (by decide)).1,
    (lifecycle_roundtrip_reopen_count [openIssueB] "B" "e2" openIssueB
      {} {} {} {} {} 11 12 13 14 15 (by decide) (by decide) (by decide)).2⟩

/-! ## Repository finders with ORDER BY

`ORDER BY` is modelled as a stable insertion sort on the query's sort
keys (`List.insertionSort` is stable, so rows the keys leave tied keep
table order, which also models the store's unspecified tie order). -/

/-- `ORDER BY timestamp DESC`. -/
def tsDescRel (x y : LogEntry) : Prop := y.timestamp ≤ x.timestamp

instance : DecidableRel tsDescRel := fun x y => Nat.decLe y.timestamp x.timestamp

instance : IsTotal LogEntry tsDescRel :=
  ⟨fun x y => Nat.le_total y.timestamp x.timestamp⟩

instance : IsTrans LogEntry tsDescRel :=
  ⟨fun _ _ _ hxy hyz => Nat.le_trans hyz hxy⟩

/-- `CASE WHEN state = 'revert' THEN 0 ELSE 1 END`. -/
def revertRank (r : LogEntry) : Nat := if r.state = .revert then 0 else 1

/-- `ORDER BY CASE WHEN state = 'revert' THEN 0 ELSE 1 END, timestamp
DESC`. -/
def openRevertRel (x y : LogEntry) : Prop :=
  revertRank x < revertRank y
    ∨ (revertRank x = revertRank y ∧ y.timestamp ≤ x.timestamp)

instance : DecidableRel openRevertRel := fun x y => by
  unfold openRevertRel; infer_instance

instance : IsTotal LogEntry openRevertRel := by
  constructor
  intro x y
  unfold openRevertRel
  rcases Nat.lt_trichotomy (revertRank x) (revertRank y) with h | h | h
  · exact Or.inl (Or.inl h)
  · rcases Nat.le_total y.timestamp x.timestamp with ht | ht
    · exact Or.inl (Or.inr ⟨h, ht⟩)
    · exact Or.inr (Or.inr ⟨h.symm, ht⟩)
  · exact Or.inr (Or.inl h)

instance : IsTrans LogEntry openRevertRel := by
  constructor
  intro x y z hxy hyz
  unfold openRevertRel at hxy hyz ⊢
  rcases hxy with h1 | ⟨h1, t1⟩ <;> rcases hyz with h2 | ⟨h2, t2⟩
  · exact Or.inl (Nat.lt_trans h1 h2)
  · exact Or.inl (h2 ▸ h1)
  · exact Or.inl (h1 ▸ h2)
  · exact Or.inr ⟨h1.trans h2, Nat.le_trans t2 t1⟩

/-- `SELECT * FROM logs WHERE application_id = $1 ORDER BY timestamp
DESC`. -/
def findByApplicationId (store : List LogEntry) (applicationId : String) :
    List LogEntry :=
  List.insertionSort tsDescRel
    (store.filter fun r => r.application_id = applicationId)

/-- `SELECT * FROM logs WHERE application_id = $1 AND state = $2 ORDER BY
timestamp DESC`. -/
def findByState (store : List LogEntry) (applicationId : String)
    (state : LogState) : List LogEntry :=
  List.insertionSort tsDescRel
    (store.filter fun r => r.application_id = applicationId && r.state = state)

/-- `SELECT * FROM logs WHERE application_id = $1 AND state IN ('open',
'revert') ORDER BY CASE WHEN state = 'revert' THEN 0 ELSE 1 END,
timestamp DESC`. -/
def findOpenAndRevert (store : List LogEntry) (applicationId : String) :
    List LogEntry :=
  List.insertionSort openRevertRel
    (store.filter fun r =>
      r.application_id = applicationId
        && (r.state = .open_ || r.state = .revert))

/-- `LogService.getLogsByState`: the `open` view is `findOpenAndRevert`,
other states use `findByState`. -/
def getLogsByState (store : List LogEntry) (applicationId : String)
    (state : LogState) : List LogEntry :=
  if state = .open_ then findOpenAndRevert store applicationId
  else findByState store applicationId state

/-- C8, counterexample: two `open` issues with equal timestamps whose
`updated_at` (and identifier) order contradicts the claimed tie-break;
the open view returns them in table order, not by descending
`updated_at`. -/
def tieIssueOld : LogEntry :=
  { id := "b", application_id := "A", timestamp := 10, message := "x",
    state := .open_, updated_at := 1 }

def tieIssueNew : LogEntry :=
  { id := "a", application_id := "A", timestamp := 10, message := "y",
    state := .open_, updated_at := 2 }

theorem open_view_tiebreak_cex :
    getLogsByState [tieIssueOld, tieIssueNew] "A" .open_
      = [tieIssueOld, tieIssueNew]
    ∧ tieIssueOld.timestamp = tieIssueNew.timestamp
    ∧ tieIssueOld.state = tieIssueNew.state
    ∧ tieIssueOld.updated_at < tieIssueNew.updated_at := by
  refine ⟨?_, by decide, by decide, by decide⟩
  decide

/-- C8 (amended): the open view returns exactly the application's issues
in states `revert` and `open` (a permutation of that filter), with every
`revert` entry before every `open` entry and, within each state, in
descending timestamp order; rows tied on these keys keep table order (the
query has no `updated_at` or identifier sort key). -/
theorem open_view_order (store : List LogEntry) (applicationId : String) :
    (getLogsByState store applicationId .open_).Perm
      (store.filter fun r =>
        r.application_id = applicationId
          && (r.state = .open_ || r.state = .revert))
    ∧ (getLogsByState store applicationId .open_).Pairwise fun x y =>
        (x.state = .revert ∨ y.state ≠ .revert)
          ∧ (x.state = y.state → y.timestamp ≤ x.timestamp) := by
  constructor
  · show (findOpenAndRevert store applicationId).Perm _
    exact List.perm_insertionSort openRevertRel _
  · show (findOpenAndRevert store applicationId).Pairwise _
    refine List.Pairwise.imp ?_
      (List.sorted_insertionSort openRevertRel
        (store.filter fun r =>
          r.application_id = applicationId
            && (r.state = .open_ || r.state = .revert)))
    intro x y hxy
    rcases hxy with hlt | ⟨heq, hts⟩
    · constructor
      · by_cases hx : x.state = .revert
        · exact Or.inl hx
        · exfalso
          unfold revertRank at hlt
          rw [if_neg hx] at hlt
          by_cases hy : y.state = .revert
          · rw [if_pos hy] at hlt; omega
          · rw [if_neg hy] at hlt; omega
      · intro hstate
        exfalso
        unfold revertRank at hlt
        rw [hstate] at hlt
        omega
    · constructor
      · by_cases hy : y.state = .revert
        · left
          unfold revertRank at heq
          rw [if_pos hy] at heq
          by_cases hx : x.state = .revert
          · exact hx
          · rw [if_neg hx] at heq; omega
        · exact Or.inr hy
      · intro _
        exact hts

/-! ## Admission pipeline: LogService.createLogEntry -/

/-- `s ++ "" = s`. -/
theorem str_append_empty (s : String) : s ++ "" = s := by
  show String.mk (s.data ++ []) = s
  rw [List.append_nil]

/-- `context?.message || ''` coerced to a string for the duplicate-probe
key (`message + (context?.message || '')`); a non-string value would be
coerced by JS string concatenation, an absent or empty one contributes
nothing. -/
def ctxMessageStr (context : CtxFields) : String :=
  match lookupKey context "message" with
  | some (.str s) => s
  | some (.obj _) => "[object Object]"
  | none => ""

/-- `SELECT * FROM logs WHERE application_id = $1 AND message = $2 AND
state IN ('done', 'closed') ORDER BY timestamp DESC LIMIT 1`, with
`$2 = message + (context?.message || '')`
(`LogRepository.findDuplicateCandidate`). -/
def dupProbeP (applicationId message : String) (context : CtxFields)
    (r : LogEntry) : Bool :=
  r.application_id = applicationId
    && r.message = message ++ ctxMessageStr context
    && (r.state = .done || r.state = .closed)

def findDuplicateCandidate (store : List LogEntry)
    (applicationId message : String) (context : CtxFields) :
    Option LogEntry :=
  (List.insertionSort tsDescRel
    (store.filter (dupProbeP applicationId message context))).head?

/-- The storage limits consulted by screenshot extraction. -/
structure StorageConfig where
  maxImageSize : Nat
  allowedImageTypes : List String
deriving DecidableEq

/-- JS `\w`: ASCII letters, digits and underscore. -/
def isWordChar (c : Char) : Bool := c.isAlphanum || c = '_'

def strStartsWith (s p : String) : Bool := s.data.take p.data.length = p.data

/-- The match of `^data:image\/(\w+);base64,(.+)$` (after the
`startsWith('data:image/')` guard): the extension and base64 payload, or
`none` when the regex does not match (`.` does not cross line
terminators). -/
def parseDataImage (s : String) : Option (String × String) :=
  if strStartsWith s "data:image/" then
    if (s.data.drop 11).takeWhile isWordChar ≠ [] &&
        ((s.data.drop 11).dropWhile isWordChar).take 8 = ";base64,".data &&
        ((s.data.drop 11).dropWhile isWordChar).drop 8 ≠ [] &&
        (((s.data.drop 11).dropWhile isWordChar).drop 8).all
          (fun c => c ≠ '\n' && c ≠ '\r') then
      some (⟨(s.data.drop 11).takeWhile isWordChar⟩,
            ⟨((s.data.drop 11).dropWhile isWordChar).drop 8⟩)
    else none
  else none

/-- `LogService.replaceScreenshots` on a context object: walk the fields
in order; a string field that parses as a data-URI image is persisted
(modelled: the write succeeds) and replaced by its filename, or by the
`[Image too large]` / `[Image type not allowed]` sentinel; object fields
recurse; other strings are left unchanged.  The accumulator is the
`screenshots` array (filenames in write order); the size test
`(base64.length * 3) / 4 > maxImageSize` is the exact rational
comparison `3 * length > 4 * maxImageSize`. -/
def replaceFields (cfg : StorageConfig) (applicationId entryId : String) :
    CtxFields → List String → CtxFields × List String
  | .nil, shots => (.nil, shots)
  | .cons k (.str s) rest, shots =>
    match parseDataImage s with
    | some (ext, payload) =>
      if 3 * payload.data.length > 4 * cfg.maxImageSize then
        (.cons k (.str "[Image too large]")
          (replaceFields cfg applicationId entryId rest shots).1,
         (replaceFields cfg applicationId entryId rest shots).2)
      else if !(cfg.allowedImageTypes.contains (lowerStr ext)) then
        (.cons k (.str "[Image type not allowed]")
          (replaceFields cfg applicationId entryId rest shots).1,
         (replaceFields cfg applicationId entryId rest shots).2)
      else
        (.cons k (.str (applicationId ++ "-img-" ++ entryId ++ "-"
            ++ toString (shots.length + 1) ++ "." ++ ext))
          (replaceFields cfg applicationId entryId rest
            (shots ++ [applicationId ++ "-img-" ++ entryId ++ "-"
              ++ toString (shots.length + 1) ++ "." ++ ext])).1,
         (replaceFields cfg applicationId entryId rest
           (shots ++ [applicationId ++ "-img-" ++ entryId ++ "-"
             ++ toString (shots.length + 1) ++ "." ++ ext])).2)
    | none =>
      (.cons k (.str s) (replaceFields cfg applicationId entryId rest shots).1,
       (replaceFields cfg applicationId entryId rest shots).2)
  | .cons k (.obj f) rest, shots =>
    (.cons k (.obj (replaceFields cfg applicationId entryId f shots).1)
      (replaceFields cfg applicationId entryId rest
        (replaceFields cfg applicationId entryId f shots).2).1,
     (replaceFields cfg applicationId entryId rest
       (replaceFields cfg applicationId entryId f shots).2).2)

/-- `LogService.processScreenshots`: walk the admitted context with an
empty screenshots accumulator. -/
def processScreenshots (cfg : StorageConfig) (applicationId entryId : String)
    (context : CtxFields) : CtxFields × List String :=
  replaceFields cfg applicationId entryId context []

/-- The body of a `POST /log` admission request. -/
structure LogPayload where
  applicationId : String := ""
  timestamp : Option Nat := none
  message : String := ""
  context : Option CtxFields := none
deriving DecidableEq

/-- The object `LogService.createLogEntry` resolves with. -/
structure CreateResult where
  success : Bool
  blocked : Bool := false
  reason : Option String := none
  pattern : Option String := none
  logged : Option LogEntry := none
  deduplicated : Bool := false
  action : Option String := none
deriving DecidableEq

/-- The fresh row inserted by the create branch (`INSERT ... RETURNING *`;
the row's `created_at`/`updated_at` default to `NOW()`). -/
def createdEntry (logData : LogPayload) (entryId : String) (pctx : CtxFields)
    (shots : List String) (embeddingEnabled : Bool) (now : Nat) : LogEntry :=
  { id := entryId, application_id := logData.applicationId,
    timestamp := logData.timestamp.getD now, message := logData.message,
    context := pctx, screenshots := shots,
    state := if embeddingEnabled then .pending else .open_,
    reopen_count := 0, created_at := now, updated_at := now }

/-- The result/store pair of the reopen branch: merge contexts (incoming
overrides existing), append screenshots, run `reopenExisting`, and read
the row back. -/
def reopenResult (store : List LogEntry) (existing : LogEntry) (ts : Nat)
    (pctx : CtxFields) (shots : List String) (now : Nat) :
    CreateResult × List LogEntry :=
  ({ success := true,
     logged := findById (reopenExisting store existing.id ts
         (jsSpread existing.context pctx)
         (existing.screenshots ++ shots) now).1 existing.id,
     deduplicated := true, action := some "reopened_existing" },
   (reopenExisting store existing.id ts (jsSpread existing.context pctx)
     (existing.screenshots ++ shots) now).1)

/-- The result/store pair of the create branch. -/
def createResultNew (store : List LogEntry) (logData : LogPayload)
    (entryId : String) (pctx : CtxFields) (shots : List String)
    (embeddingEnabled : Bool) (now : Nat) : CreateResult × List LogEntry :=
  ({ success := true,
     logged := some (createdEntry logData entryId pctx shots embeddingEnabled now),
     deduplicated := false, action := some "created_new" },
   store ++ [createdEntry logData entryId pctx shots embeddingEnabled now])

/-- The branch on the duplicate probe's result: `done` candidates are
reopened, anything else leads to a fresh insert. -/
def admitWith (store : List LogEntry) (logData : LogPayload)
    (entryId : String) (pctx : CtxFields) (shots : List String)
    (embeddingEnabled : Bool) (now : Nat) :
    Option LogEntry → CreateResult × List LogEntry
  | some existing =>
    if existing.state = .done then
      reopenResult store existing (logData.timestamp.getD now) pctx shots now
    else createResultNew store logData entryId pctx shots embeddingEnabled now
  | none => createResultNew store logData entryId pctx shots embeddingEnabled now

/-- `LogService.createLogEntry(logData)`.  `entryId` is the fresh UUID,
`now` the clock.  A missing required field throws; a blacklisted message
is blocked with nothing persisted; otherwise the duplicate probe decides
between the `done → open` reopen of the probed issue and a fresh insert
in the embedding-dependent initial state. -/
def createLogEntry (cfg : StorageConfig)
    (blacklistEnabled embeddingEnabled : Bool)
    (regexTest : String → String → Option Bool)
    (blEntries : List BlacklistEntry) (store : List LogEntry)
    (logData : LogPayload) (entryId : String) (now : Nat) :
    Except String (CreateResult × List LogEntry) :=
  if logData.applicationId = "" ∨ logData.message = "" then
    .error "applicationId and message are required"
  else if (isBlacklisted blacklistEnabled regexTest blEntries logData.message
      (some logData.applicationId)).isBlacklisted then
    .ok ({ success := false, blocked := true,
           reason := (isBlacklisted blacklistEnabled regexTest blEntries
             logData.message (some logData.applicationId)).reason,
           pattern := (isBlacklisted blacklistEnabled regexTest blEntries
             logData.message (some logData.applicationId)).matchedPattern },
         store)
  else
    .ok (admitWith store logData entryId
      (processScreenshots cfg logData.applicationId entryId
        (logData.context.getD .nil)).1
      (processScreenshots cfg logData.applicationId entryId
        (logData.context.getD .nil)).2
      embeddingEnabled now
      (findDuplicateCandidate store logData.applicationId logData.message
        (processScreenshots cfg logData.applicationId entryId
          (logData.context.getD .nil)).1))

theorem findById_append_fresh (store : List LogEntry) (e : LogEntry)
    (id : String) (hfresh : (store.any fun r => r.id = id) = false)
    (he : e.id = id) : findById (store ++ [e]) id = some e := by
  unfold findById
  rw [List.find?_append]
  have h0 : List.find? (fun r => decide (r.id = id)) store = none := by
    rw [List.find?_eq_none]
    intro x hx
    exact List.any_eq_false.mp hfresh x hx
  rw [h0, Option.none_or]
  exact List.find?_cons_of_pos _ (decide_eq_true he)

theorem sqlMap_fresh (store : List LogEntry) (id : String)
    (f : LogEntry → LogEntry)
    (hfresh : (store.any fun r => r.id = id) = false) :
    (store.map fun r => if r.id = id then f r else r) = store := by
  induction store with
  | nil => rfl
  | cons x xs ih =>
    rw [List.any_cons, Bool.or_eq_false_iff] at hfresh
    rw [List.map_cons, if_neg (of_decide_eq_false hfresh.1), ih hfresh.2]

theorem sqlUpdateById_append_fresh (store : List LogEntry) (e : LogEntry)
    (id : String) (f : LogEntry → LogEntry)
    (hfresh : (store.any fun r => r.id = id) = false) (he : e.id = id) :
    (sqlUpdateById (store ++ [e]) id f).1 = store ++ [f e] := by
  show List.map _ (store ++ [e]) = _
  rw [List.map_append, sqlMap_fresh store id f hfresh]
  show store ++ [if e.id = id then f e else e] = store ++ [f e]
  rw [if_pos he]

theorem probe_none_filter_nil (store : List LogEntry) (a m : String)
    (ctx : CtxFields)
    (h : findDuplicateCandidate store a m ctx = none) :
    store.filter (dupProbeP a m ctx) = [] := by
  unfold findDuplicateCandidate at h
  rw [List.head?_eq_none_iff] at h
  have hperm := List.perm_insertionSort tsDescRel
    (store.filter (dupProbeP a m ctx))
  rw [h] at hperm
  exact List.Perm.eq_nil hperm.symm

theorem findDuplicateCandidate_append (store : List LogEntry) (e : LogEntry)
    (a m : String) (ctx : CtxFields)
    (hnone : findDuplicateCandidate store a m ctx = none)
    (hp : dupProbeP a m ctx e = true) :
    findDuplicateCandidate (store ++ [e]) a m ctx = some e := by
  unfold findDuplicateCandidate
  rw [List.filter_append, probe_none_filter_nil store a m ctx hnone,
    List.nil_append, List.filter_cons_of_pos hp]
  rfl

/-- The admission's success path when the duplicate probe returns a `done`
issue: the result is the reopen of exactly that issue. -/
theorem createLogEntry_reopen_case (cfg : StorageConfig) (bl emb : Bool)
    (rt : String → String → Option Bool) (ents : List BlacklistEntry)
    (store : List LogEntry) (logData : LogPayload) (entryId : String)
    (now : Nat) (pctx : CtxFields) (shots : List String) (existing : LogEntry)
    (hval1 : logData.applicationId ≠ "") (hval2 : logData.message ≠ "")
    (hbl : (isBlacklisted bl rt ents logData.message
      (some logData.applicationId)).isBlacklisted = false)
    (hps1 : (processScreenshots cfg logData.applicationId entryId
      (logData.context.getD .nil)).1 = pctx)
    (hps2 : (processScreenshots cfg logData.applicationId entryId
      (logData.context.getD .nil)).2 = shots)
    (hdup : findDuplicateCandidate store logData.applicationId
      logData.message pctx = some existing)
    (hdone : existing.state = .done)
    (hfind : findById store existing.id = some existing) :
    createLogEntry cfg bl emb rt ents store logData entryId now
      = .ok ({ success := true,
               logged := some (applyReopen (logData.timestamp.getD now)
                 (jsSpread existing.context pctx)
                 (existing.screenshots ++ shots) now existing),
               deduplicated := true, action := some "reopened_existing" },
             (reopenExisting store existing.id (logData.timestamp.getD now)
               (jsSpread existing.context pctx)
               (existing.screenshots ++ shots) now).1) := by
  unfold createLogEntry
  rw [if_neg (by rintro (h | h) <;> contradiction),
    if_neg (by rw [hbl]; exact fun hh => nomatch hh),
    hps1, hps2, hdup]
  simp only [admitWith]
  rw [if_pos hdone]
  unfold reopenResult reopenExisting
  rw [findById_sqlUpdateById store existing.id
    (applyReopen (logData.timestamp.getD now) (jsSpread existing.context pctx)
      (existing.screenshots ++ shots) now) (fun r => rfl) existing hfind]

/-- The round-trip law: admit (no matching done/closed issue, so a fresh
`open` issue is created), drive it to `done`, admit the identical payload
again: the second admission reopens the same identifier with
`reopen_count = 1`. -/
theorem createLogEntry_roundtrip (cfg : StorageConfig) (bl : Bool)
    (rt : String → String → Option Bool) (ents : List BlacklistEntry)
    (store0 : List LogEntry) (logData : LogPayload) (id1 id3 : String)
    (md : UpdateMeta) (n1 n2 n3 : Nat) (pctx : CtxFields)
    (shots1 shots3 : List String)
    (hval1 : logData.applicationId ≠ "") (hval2 : logData.message ≠ "")
    (hbl : (isBlacklisted bl rt ents logData.message
      (some logData.applicationId)).isBlacklisted = false)
    (hpsA1 : (processScreenshots cfg logData.applicationId id1
      (logData.context.getD .nil)).1 = pctx)
    (hpsA2 : (processScreenshots cfg logData.applicationId id1
      (logData.context.getD .nil)).2 = shots1)
    (hpsB1 : (processScreenshots cfg logData.applicationId id3
      (logData.context.getD .nil)).1 = pctx)
    (hpsB2 : (processScreenshots cfg logData.applicationId id3
      (logData.context.getD .nil)).2 = shots3)
    (hmsg : ctxMessageStr pctx = "")
    (hnodup : findDuplicateCandidate store0 logData.applicationId
      logData.message pctx = none)
    (hfresh : (store0.any fun r => r.id = id1) = false) :
    createLogEntry cfg bl false rt ents store0 logData id1 n1
      = .ok (createResultNew store0 logData id1 pctx shots1 false n1)
    ∧ (updateLogState (store0 ++ [createdEntry logData id1 pctx shots1 false n1])
        logData.applicationId id1 .done md n2).1.success = true
    ∧ ∃ e' store',
        createLogEntry cfg bl false rt ents
          (updateLogState
            (store0 ++ [createdEntry logData id1 pctx shots1 false n1])
            logData.applicationId id1 .done md n2).2
          logData id3 n3
          = .ok ({ success := true, logged := some e',
                   deduplicated := true,
                   action := some "reopened_existing" }, store')
        ∧ e'.id = id1 ∧ e'.reopen_count = 1 ∧ e'.state = .open_ := by
  have hcall1 : createLogEntry cfg bl false rt ents store0 logData id1 n1
      = .ok (createResultNew store0 logData id1 pctx shots1 false n1) := by
    unfold createLogEntry
    rw [if_neg (by rintro (h | h) <;> contradiction),
      if_neg (by rw [hbl]; exact fun hh => nomatch hh),
      hpsA1, hpsA2, hnodup]
    rfl
  have hfind1 : findById
      (store0 ++ [createdEntry logData id1 pctx shots1 false n1]) id1
      = some (createdEntry logData id1 pctx shots1 false n1) :=
    findById_append_fresh store0 _ id1 hfresh rfl
  obtain ⟨h2s, h2store, h2f⟩ := updateLogState_success_step
    (store0 ++ [createdEntry logData id1 pctx shots1 false n1])
    logData.applicationId id1 .done md n2
    (createdEntry logData id1 pctx shots1 false n1) hfind1 rfl rfl
  have hstore2 : (updateLogState
      (store0 ++ [createdEntry logData id1 pctx shots1 false n1])
      logData.applicationId id1 .done md n2).2
      = store0 ++ [transApply .done
          (createdEntry logData id1 pctx shots1 false n1) md n2
          (createdEntry logData id1 pctx shots1 false n1)] := by
    rw [h2store]
    exact sqlUpdateById_append_fresh store0 _ id1 _ hfresh rfl
  have hpdoneE : dupProbeP logData.applicationId logData.message pctx
      (transApply .done (createdEntry logData id1 pctx shots1 false n1) md n2
        (createdEntry logData id1 pctx shots1 false n1)) = true := by
    unfold dupProbeP
    rw [hmsg, str_append_empty,
      decide_eq_true (show (transApply .done
        (createdEntry logData id1 pctx shots1 false n1) md n2
        (createdEntry logData id1 pctx shots1 false n1)).application_id
          = logData.applicationId from rfl),
      decide_eq_true (show (transApply .done
        (createdEntry logData id1 pctx shots1 false n1) md n2
        (createdEntry logData id1 pctx shots1 false n1)).message
          = logData.message from rfl),
      decide_eq_true (show (transApply .done
        (createdEntry logData id1 pctx shots1 false n1) md n2
        (createdEntry logData id1 pctx shots1 false n1)).state
          = .done from rfl)]
    rfl
  have hprobe3 := findDuplicateCandidate_append store0
    (transApply .done (createdEntry logData id1 pctx shots1 false n1) md n2
      (createdEntry logData id1 pctx shots1 false n1))
    logData.applicationId logData.message pctx hnodup hpdoneE
  have hfind3 : findById (store0 ++ [transApply .done
      (createdEntry logData id1 pctx shots1 false n1) md n2
      (createdEntry logData id1 pctx shots1 false n1)])
      (transApply .done (createdEntry logData id1 pctx shots1 false n1) md n2
        (createdEntry logData id1 pctx shots1 false n1)).id
      = some (transApply .done
        (createdEntry logData id1 pctx shots1 false n1) md n2
        (createdEntry logData id1 pctx shots1 false n1)) :=
    findById_append_fresh store0 _ id1 hfresh rfl
  have hcall3 := createLogEntry_reopen_case cfg bl false rt ents
    (store0 ++ [transApply .done
      (createdEntry logData id1 pctx shots1 false n1) md n2
      (createdEntry logData id1 pctx shots1 false n1)])
    logData id3 n3 pctx shots3
    (transApply .done (createdEntry logData id1 pctx shots1 false n1) md n2
      (createdEntry logData id1 pctx shots1 false n1))
    hval1 hval2 hbl hpsB1 hpsB2 hprobe3 rfl hfind3
  refine ⟨hcall1, h2s, ?_⟩
  rw [hstore2]
  exact ⟨_, _, hcall3, rfl, rfl, rfl⟩

/-- The storage defaults (`config.storage`). -/
def storageDefaults : StorageConfig :=
  { maxImageSize := 10485760,
    allowedImageTypes := ["jpg", "jpeg", "png", "gif", "webp", "bmp"] }

/-- A `done` issue and a newer `closed` issue sharing the admission key. -/
def dupDoneIssue : LogEntry :=
  { id := "d1", application_id := "A", timestamp := 1, message := "crash",
    state := .done }

def dupClosedIssue : LogEntry :=
  { id := "c1", application_id := "A", timestamp := 2, message := "crash",
    state := .closed }

def crashPayload : LogPayload :=
  { applicationId := "A", message := "crash" }

/-- The `action` of an admission result. -/
def admissionAction (r : Except String (CreateResult × List LogEntry)) :
    Option String :=
  match r with
  | .ok (res, _) => res.action
  | .error _ => none

/-- C2, counterexample: the store holds a `done` issue whose key equals
the admission's key, yet the admission creates a new issue instead of
reopening it, because the probe (`state IN ('done','closed')`, newest
first, `LIMIT 1`) is shadowed by a newer `closed` issue with the same
key. -/
theorem admission_reopen_shadowed_by_closed_cex :
    dupDoneIssue.state = .done
    ∧ dupDoneIssue.application_id = crashPayload.applicationId
    ∧ dupDoneIssue.message = crashPayload.message
    ∧ dupDoneIssue ∈ [dupDoneIssue, dupClosedIssue]
    ∧ admissionAction (createLogEntry storageDefaults true false
        (fun _ _ => none) [] [dupDoneIssue, dupClosedIssue] crashPayload
        "n1" 9) = some "created_new" := by
  refine ⟨by decide, by decide, by decide, by decide, ?_⟩
  decide

/-- C2 (amended): (a) whenever the duplicate probe — newest issue whose
message equals the admission's combined key and whose state is `done` or
`closed` — returns a `done` issue, admission reopens exactly that issue:
`action = reopened_existing`, same identifier, `reopen_count` incremented
by one, context merged with incoming values overriding, screenshots
appended, state `open`; (b) hence (embedding disabled, payload context
contributing no `message` key, fresh identifiers) two successive
admissions of identical payloads after the first issue has reached `done`
yield the same identifier with `reopen_count` exactly 1. -/
theorem admission_dedup_reopen :
    (∀ (cfg : StorageConfig) (bl emb : Bool)
      (rt : String → String → Option Bool) (ents : List BlacklistEntry)
      (store : List LogEntry) (logData : LogPayload) (entryId : String)
      (now : Nat) (pctx : CtxFields) (shots : List String)
      (existing : LogEntry),
      logData.applicationId ≠ "" → logData.message ≠ "" →
      (isBlacklisted bl rt ents logData.message
        (some logData.applicationId)).isBlacklisted = false →
      (processScreenshots cfg logData.applicationId entryId
        (logData.context.getD .nil)).1 = pctx →
      (processScreenshots cfg logData.applicationId entryId
        (logData.context.getD .nil)).2 = shots →
      findDuplicateCandidate store logData.applicationId logData.message pctx
        = some existing →
      existing.state = .done →
      findById store existing.id = some existing →
      createLogEntry cfg bl emb rt ents store logData entryId now
        = .ok ({ success := true,
                 logged := some (applyReopen (logData.timestamp.getD now)
                   (jsSpread existing.context pctx)
                   (existing.screenshots ++ shots) now existing),
                 deduplicated := true, action := some "reopened_existing" },
               (reopenExisting store existing.id (logData.timestamp.getD now)
                 (jsSpread existing.context pctx)
                 (existing.screenshots ++ shots) now).1)
        ∧ (applyReopen (logData.timestamp.getD now)
            (jsSpread existing.context pctx)
            (existing.screenshots ++ shots) now existing).id = existing.id
        ∧ (applyReopen (logData.timestamp.getD now)
            (jsSpread existing.context pctx)
            (existing.screenshots ++ shots) now existing).reopen_count
          = existing.reopen_count + 1
        ∧ (applyReopen (logData.timestamp.getD now)
            (jsSpread existing.context pctx)
            (existing.screenshots ++ shots) now existing).context
          = jsSpread existing.context pctx
        ∧ (applyReopen (logData.timestamp.getD now)
            (jsSpread existing.context pctx)
            (existing.screenshots ++ shots) now existing).screenshots
          = existing.screenshots ++ shots
        ∧ (applyReopen (logData.timestamp.getD now)
            (jsSpread existing.context pctx)
            (existing.screenshots ++ shots) now existing).state = .open_)
    ∧ (∀ (cfg : StorageConfig) (bl : Bool)
      (rt : String → String → Option Bool) (ents : List BlacklistEntry)
      (store0 : List LogEntry) (logData : LogPayload) (id1 id3 : String)
      (md : UpdateMeta) (n1 n2 n3 : Nat) (pctx : CtxFields)
      (shots1 shots3 : List String),
      logData.applicationId ≠ "" → logData.message ≠ "" →
      (isBlacklisted bl rt ents logData.message
        (some logData.applicationId)).isBlacklisted = false →
      (processScreenshots cfg logData.applicationId id1
        (logData.context.getD .nil)).1 = pctx →
      (processScreenshots cfg logData.applicationId id1
        (logData.context.getD .nil)).2 = shots1 →
      (processScreenshots cfg logData.applicationId id3
        (logData.context.getD .nil)).1 = pctx →
      (processScreenshots cfg logData.applicationId id3
        (logData.context.getD .nil)).2 = shots3 →
      ctxMessageStr pctx = "" →
      findDuplicateCandidate store0 logData.applicationId logData.message pctx
        = none →
      (store0.any fun r => r.id = id1) = false →
      createLogEntry cfg bl false rt ents store0 logData id1 n1
        = .ok (createResultNew store0 logData id1 pctx shots1 false n1)
      ∧ (updateLogState
          (store0 ++ [createdEntry logData id1 pctx shots1 false n1])
          logData.applicationId id1 .done md n2).1.success = true
      ∧ ∃ e' store',
          createLogEntry cfg bl false rt ents
            (updateLogState
              (store0 ++ [createdEntry logData id1 pctx shots1 false n1])
              logData.applicationId id1 .done md n2).2
            logData id3 n3
            = .ok ({ success := true, logged := some e',
                     deduplicated := true,
                     action := some "reopened_existing" }, store')
          ∧ e'.id = id1 ∧ e'.reopen_count = 1 ∧ e'.state = .open_) :=
  ⟨fun cfg bl emb rt ents store logData entryId now pctx shots existing
      hval1 hval2 hbl hps1 hps2 hdup hdone hfind =>
    ⟨createLogEntry_reopen_case cfg bl emb rt ents store logData entryId now
      pctx shots existing hval1 hval2 hbl hps1 hps2 hdup hdone hfind,
     rfl, rfl, rfl, rfl, rfl⟩,
   fun cfg bl rt ents store0 logData id1 id3 md n1 n2 n3 pctx shots1 shots3
      hval1 hval2 hbl hpsA1 hpsA2 hpsB1 hpsB2 hmsg hnodup hfresh =>
    createLogEntry_roundtrip cfg bl rt ents store0 logData id1 id3 md
      n1 n2 n3 pctx shots1 shots3 hval1 hval2 hbl hpsA1 hpsA2 hpsB1 hpsB2
      hmsg hnodup hfresh⟩

/-- Concrete instantiation of `admission_dedup_reopen` (part a): a store
holding exactly one `done` issue with the admission's key. -/
theorem admission_dedup_reopen_witness :
    (crashPayload.applicationId ≠ "") ∧ (crashPayload.message ≠ "")
    ∧ ((isBlacklisted true (fun _ _ => none) [] crashPayload.message
        (some crashPayload.applicationId)).isBlacklisted = false)
    ∧ ((processScreenshots storageDefaults crashPayload.applicationId "w1"
        (crashPayload.context.getD .nil)).1 = .nil)
    ∧ ((processScreenshots storageDefaults crashPayload.applicationId "w1"
        (crashPayload.context.getD .nil)).2 = [])
    ∧ (findDuplicateCandidate [dupDoneIssue] crashPayload.applicationId
        crashPayload.message .nil = some dupDoneIssue)
    ∧ (dupDoneIssue.state = .done)
    ∧ (findById [dupDoneIssue] dupDoneIssue.id = some dupDoneIssue)
    ∧ (createLogEntry storageDefaults true false (fun _ _ => none) []
        [dupDoneIssue] crashPayload "w1" 5
        = .ok ({ success := true,
                 logged := some (applyReopen 5
                   (jsSpread dupDoneIssue.context .nil)
                   (dupDoneIssue.screenshots ++ []) 5 dupDoneIssue),
                 deduplicated := true, action := some "reopened_existing" },
               (reopenExisting [dupDoneIssue] dupDoneIssue.id 5
                 (jsSpread dupDoneIssue.context .nil)
                 (dupDoneIssue.screenshots ++ []) 5).1)) :=
  ⟨by decide, by decide, by decide, by decide, by decide, by decide,
   by decide, by decide,
   (admission_dedup_reopen.1 storageDefaults true false (fun _ _ => none) []
     [dupDoneIssue] crashPayload "w1" 5 .nil [] dupDoneIssue
     (by decide) (by decide) (by decide) (by decide) (by decide)
     (by decide) (by decide) (by decide)).1⟩

/-! ## EmbeddingService.mergeLogs (C6) -/

/-- A row of the `duplicates` table. -/
structure DuplicateEdge where
  original_log_id : String
  duplicate_log_id : String
  similarity_score : ℚ
deriving DecidableEq

/-- The three bookkeeping keys appended to the merged context. -/
def mergeExtras (sourceLogId mergeReason nowIso : String) : CtxFields :=
  .cons "merged_from" (.str sourceLogId)
    (.cons "merge_reason" (.str mergeReason)
      (.cons "merge_timestamp" (.str nowIso) .nil))

/-- The edge row `INSERT INTO duplicates ... VALUES ($1, $2, 0.95)`
writes. -/
def mergeEdge (targetLogId sourceLogId : String) : DuplicateEdge :=
  { original_log_id := targetLogId, duplicate_log_id := sourceLogId,
    similarity_score := 95 / 100 }

/-- The `UPDATE logs SET context, screenshots, reopen_count + 1,
updated_at = NOW()` applied to the merge target. -/
def mergeApply (mergedContext : CtxFields) (mergedScreenshots : List String)
    (now : Nat) (r : LogEntry) : LogEntry :=
  { r with
    context := mergedContext, screenshots := mergedScreenshots,
    reopen_count := r.reopen_count + 1, updated_at := now }

/-- `EmbeddingService.mergeLogs(sourceLogId, targetLogId, mergeReason)`:
one transaction that fetches both rows (a missing row aborts with
`ROLLBACK`, leaving everything unchanged), rewrites the target with the
spread-merged context (`\x7b...target.context, ...source.context,
merged_from, merge_reason, merge_timestamp\x7d`) and appended
screenshots, bumps `reopen_count`, inserts the DuplicateEdge
`(target, source, 0.95)` (`ON CONFLICT DO NOTHING`; the table has no
unique key beyond its serial id, so the insert always lands), and deletes
the source row — whose `ON DELETE CASCADE` foreign keys also remove every
edge touching the source, including the row just inserted.  `nowIso` is
the `toISOString` clock used inside the context, `now` the store clock. -/
def mergeLogs (store : List LogEntry) (dups : List DuplicateEdge)
    (sourceLogId targetLogId mergeReason nowIso : String) (now : Nat) :
    Bool × List LogEntry × List DuplicateEdge :=
  match findById store sourceLogId, findById store targetLogId with
  | some sourceLog, some targetLog =>
    (true,
     (sqlUpdateById store targetLogId
        (mergeApply
          (jsSpread (jsSpread targetLog.context sourceLog.context)
            (mergeExtras sourceLogId mergeReason nowIso))
          (targetLog.screenshots ++ sourceLog.screenshots) now)).1.filter
       (fun r => !(r.id = sourceLogId)),
     (dups ++ [mergeEdge targetLogId sourceLogId]).filter
       fun d => !(d.original_log_id = sourceLogId)
         && !(d.duplicate_log_id = sourceLogId))
  | _, _ => (false, store, dups)

/-- One row of the deep merge: walk `a`'s fields, merging colliding
object values with `f` and letting `b`'s value win otherwise. -/
def deepMergeRowAux (f : CtxFields → CtxFields → CtxFields) :
    CtxFields → CtxFields → CtxFields
  | .nil, _ => .nil
  | .cons k v rest, b =>
    .cons k
      (match lookupKey b k, v with
       | some (.obj bf), .obj af => .obj (f af bf)
       | some other, _ => other
       | none, _ => v)
      (deepMergeRowAux f rest b)

/-- The deep merge the specification describes (`b` overrides `a`;
colliding object values merge recursively).  `fuel` bounds the recursion
depth and is taken larger than the inputs' nesting depth. -/
def deepMergeFuel : Nat → CtxFields → CtxFields → CtxFields
  | 0, _, b => b
  | fuel + 1, a, b =>
    ctxAppend (deepMergeRowAux (fun x y => deepMergeFuel fuel x y) a b)
      (ctxFilter (fun k _ => !hasKey a k) b)

/-- The merge scenario refuting the claim's deep-merge and edge-survival
parts: nested contexts colliding on key `"a"`. -/
def mergeTargetIssue : LogEntry :=
  { id := "t", application_id := "A", timestamp := 1, message := "mt",
    state := .open_, context := .cons "a" (.obj (.cons "x" (.str "1") .nil)) .nil,
    screenshots := ["s1.png"] }

def mergeSourceIssue : LogEntry :=
  { id := "s", application_id := "A", timestamp := 2, message := "ms",
    state := .pending, context := .cons "a" (.obj (.cons "y" (.str "2") .nil)) .nil,
    screenshots := ["s2.png"] }

/-- C6, counterexample: the merge succeeds, but the neighbor's context is
the JS shallow spread-merge — the nested object under `"a"` is replaced,
not deep-merged — and the DuplicateEdge inserted inside the transaction
is cascade-deleted with the source row, so no edge persists. -/
theorem embedding_merge_cex :
    (mergeLogs [mergeTargetIssue, mergeSourceIssue] [] "s" "t" "r" "iso" 9).1
      = true
    ∧ ((findById
        (mergeLogs [mergeTargetIssue, mergeSourceIssue] [] "s" "t" "r" "iso" 9).2.1
        "t").map fun r => r.context)
      = some (jsSpread
          (jsSpread mergeTargetIssue.context mergeSourceIssue.context)
          (mergeExtras "s" "r" "iso"))
    ∧ deepMergeFuel 3 mergeTargetIssue.context
        (ctxAppend mergeSourceIssue.context (mergeExtras "s" "r" "iso"))
      = .cons "a" (.obj (.cons "x" (.str "1") (.cons "y" (.str "2") .nil)))
          (mergeExtras "s" "r" "iso")
    ∧ jsSpread (jsSpread mergeTargetIssue.context mergeSourceIssue.context)
        (mergeExtras "s" "r" "iso")
      ≠ deepMergeFuel 3 mergeTargetIssue.context
          (ctxAppend mergeSourceIssue.context (mergeExtras "s" "r" "iso"))
    ∧ (mergeLogs [mergeTargetIssue, mergeSourceIssue] [] "s" "t" "r" "iso" 9).2.2
      = [] := by
  refine ⟨rfl, ?_, rfl, by decide, ?_⟩ <;> rfl

theorem find?_filter_of_imp {α : Type} (l : List α) (p q : α → Bool)
    (h : ∀ r, q r = true → p r = true) :
    (l.filter p).find? q = l.find? q := by
  induction l with
  | nil => rfl
  | cons x xs ih =>
    by_cases hp : p x = true
    · rw [List.filter_cons_of_pos hp, List.find?_cons, List.find?_cons]
      cases hq : q x <;> simp [ih]
    · rw [List.filter_cons_of_neg (by simpa using hp), List.find?_cons]
      cases hq : q x with
      | true => exact absurd (h x hq) hp
      | false => simp [ih]

theorem find?_filter_none {α : Type} (l : List α) (p q : α → Bool)
    (h : ∀ r, q r = true → p r = false) :
    (l.filter p).find? q = none := by
  rw [List.find?_eq_none]
  intro x hx hq
  obtain ⟨-, hpx⟩ := List.mem_filter.mp hx
  rw [h x hq] at hpx
  exact nomatch hpx

/-- C6 (amended): a merge whose two rows exist is atomic and performs, in
one transaction: the neighbor's context becomes the JS shallow
spread-merge of (neighbor-context, source-context, bookkeeping keys) —
source values override on top-level key collisions — the source's
screenshots
are appended, the neighbor's `reopen_count` is incremented by one, the
source row is deleted, and the DuplicateEdge `(neighbor, source, 0.95)`
inserted by the transaction is immediately removed again by the source
deletion's `ON DELETE CASCADE`, so the edge table keeps only its prior
edges not touching the source; if either row is missing, the transaction
rolls back and nothing changes. -/
theorem mergeLogs_spec (store : List LogEntry) (dups : List DuplicateEdge)
    (sourceLogId targetLogId mergeReason nowIso : String) (now : Nat)
    (sourceLog targetLog : LogEntry)
    (hs : findById store sourceLogId = some sourceLog)
    (ht : findById store targetLogId = some targetLog)
    (hne : targetLogId ≠ sourceLogId) :
    (mergeLogs store dups sourceLogId targetLogId mergeReason nowIso now).1
      = true
    ∧ findById
        (mergeLogs store dups sourceLogId targetLogId mergeReason nowIso now).2.1
        targetLogId
      = some (mergeApply
          (jsSpread (jsSpread targetLog.context sourceLog.context)
            (mergeExtras sourceLogId mergeReason nowIso))
          (targetLog.screenshots ++ sourceLog.screenshots) now targetLog)
    ∧ findById
        (mergeLogs store dups sourceLogId targetLogId mergeReason nowIso now).2.1
        sourceLogId
      = none
    ∧ (mergeLogs store dups sourceLogId targetLogId mergeReason nowIso now).2.2
      = dups.filter (fun d => !(d.original_log_id = sourceLogId)
          && !(d.duplicate_log_id = sourceLogId))
    ∧ (∀ store' dups',
        (findById store' sourceLogId = none ∨ findById store' targetLogId = none) →
        mergeLogs store' dups' sourceLogId targetLogId mergeReason nowIso now
          = (false, store', dups')) := by
  have himp : ∀ r : LogEntry, decide (r.id = targetLogId) = true →
      (!decide (r.id = sourceLogId)) = true := by
    intro r hq
    rw [decide_eq_true_eq] at hq
    rw [decide_eq_false fun hcon => hne (hq.symm.trans hcon)]
    rfl
  have himp2 : ∀ r : LogEntry, decide (r.id = sourceLogId) = true →
      (!decide (r.id = sourceLogId)) = false := by
    intro r hq
    rw [hq]
    rfl
  refine ⟨?_, ?_, ?_, ?_, ?_⟩
  · unfold mergeLogs
    rw [hs, ht]
  · unfold mergeLogs
    rw [hs, ht]
    show findById (List.filter _ (sqlUpdateById store targetLogId _).1)
      targetLogId = _
    unfold findById
    rw [find?_filter_of_imp _ _ _ himp]
    exact findById_sqlUpdateById store targetLogId
      (mergeApply
        (jsSpread (jsSpread targetLog.context sourceLog.context)
          (mergeExtras sourceLogId mergeReason nowIso))
        (targetLog.screenshots ++ sourceLog.screenshots) now)
      (fun r => rfl) targetLog ht
  · unfold mergeLogs
    rw [hs, ht]
    show findById (List.filter _ (sqlUpdateById store targetLogId _).1)
      sourceLogId = none
    unfold findById
    exact find?_filter_none _ _ _ himp2
  · unfold mergeLogs
    rw [hs, ht]
    show (dups ++ [mergeEdge targetLogId sourceLogId]).filter _ = _
    rw [List.filter_append]
    have hdrop : List.filter
        (fun d : DuplicateEdge => !decide (d.original_log_id = sourceLogId)
          && !decide (d.duplicate_log_id = sourceLogId))
        [mergeEdge targetLogId sourceLogId] = [] := by
      rw [List.filter_cons_of_neg (by simp [mergeEdge])]
      rfl
    rw [hdrop]
    exact List.append_nil _
  · rintro store' dups' (h1 | h1)
    · unfold mergeLogs
      rw [h1]
    · unfold mergeLogs
      rw [h1]
      cases h2 : findById store' sourceLogId <;> rfl
/-- Concrete instantiation of `mergeLogs_spec` on a two-row table. -/
theorem mergeLogs_spec_witness :
    (findById [mergeTargetIssue, mergeSourceIssue] "s" = some mergeSourceIssue)
    ∧ (findById [mergeTargetIssue, mergeSourceIssue] "t" = some mergeTargetIssue)
    ∧ ("t" ≠ "s")
    ∧ ((mergeLogs [mergeTargetIssue, mergeSourceIssue] [] "s" "t" "r2" "iso2" 4).1
        = true) :=
  ⟨by decide, by decide, by decide,
    (mergeLogs_spec [mergeTargetIssue, mergeSourceIssue] [] "s" "t" "r2" "iso2"
      4 mergeSourceIssue mergeTargetIssue (by decide) (by decide)
      (by decide)).1⟩

/-! ## Cleanup: orphan-image sweep (C7) -/

/-- `SELECT DISTINCT application_id FROM logs`
(`CleanupService.getApplicationsWithLogs`). -/
def getApplicationsWithLogs (store : List LogEntry) : List String :=
  (store.map fun r => r.application_id).dedup

/-- The referenced-image set: every filename in the `screenshots` of any
row of any application (`CleanupService.cleanupOrphanedImages`, first
loop). -/
def referencedImages (store : List LogEntry) : List String :=
  (getApplicationsWithLogs store).flatMap fun a =>
    (findByApplicationId store a).flatMap fun r => r.screenshots

/-- `CleanupService.cleanupOrphanedImages`: delete every file of the
images directory whose name is not referenced (deletions are modelled as
succeeding); the survivors are the referenced files. -/
def cleanupOrphanedImages (store : List LogEntry) (imageFiles : List String) :
    List String :=
  imageFiles.filter fun f => (referencedImages store).contains f

theorem mem_referencedImages (store : List LogEntry) (f : String) :
    f ∈ referencedImages store ↔ ∃ r ∈ store, f ∈ r.screenshots := by
  unfold referencedImages
  rw [List.mem_flatMap]
  constructor
  · rintro ⟨a, -, hf⟩
    rw [List.mem_flatMap] at hf
    obtain ⟨r, hr, hfr⟩ := hf
    have hr' : r ∈ store := by
      unfold findByApplicationId at hr
      have := (List.perm_insertionSort tsDescRel _).mem_iff.mp hr
      exact (List.mem_filter.mp this).1
    exact ⟨r, hr', hfr⟩
  · rintro ⟨r, hr, hfr⟩
    refine ⟨r.application_id, ?_, ?_⟩
    · unfold getApplicationsWithLogs
      rw [List.mem_dedup]
      exact List.mem_map.mpr ⟨r, hr, rfl⟩
    · rw [List.mem_flatMap]
      refine ⟨r, ?_, hfr⟩
      unfold findByApplicationId
      rw [(List.perm_insertionSort tsDescRel _).mem_iff]
      exact List.mem_filter.mpr ⟨hr, decide_eq_true rfl⟩

/-- C7: after the orphan-image sweep, a file survives in the images
directory exactly when some issue row references it in `screenshots`:
every unreferenced file has been deleted and no referenced file is ever
deleted. -/
theorem cleanupOrphanedImages_spec (store : List LogEntry)
    (imageFiles : List String) (f : String) :
    f ∈ cleanupOrphanedImages store imageFiles
      ↔ f ∈ imageFiles ∧ ∃ r ∈ store, f ∈ r.screenshots := by
  unfold cleanupOrphanedImages
  rw [List.mem_filter]
  constructor
  · rintro ⟨hmem, hc⟩
    refine ⟨hmem, ?_⟩
    rw [← mem_referencedImages store f]
    exact List.elem_iff.mp hc
  · rintro ⟨hmem, href⟩
    refine ⟨hmem, ?_⟩
    exact List.elem_iff.mpr ((mem_referencedImages store f).mpr href)

/-- Textbook Levenshtein edit distance on character lists (unit-cost
substitution, insertion and deletion), used as the reference meaning of
"edit distance" when checking the dynamic program in
`CleanupService.levenshteinDistance`. -/
def levSpec : List Char → List Char → Nat
  | [], ys => ys.length
  | x :: xs, [] => (x :: xs).length
  | x :: xs, y :: ys =>
    if x = y then levSpec xs ys
    else 1 + min (levSpec xs ys) (min (levSpec (x :: xs) ys) (levSpec xs (y :: ys)))
termination_by xs ys => xs.length + ys.length

/-- Distance from the empty string is the other string's length. -/
theorem levSpec_nil_left (ys : List Char) : levSpec [] ys = ys.length := by
  simp [levSpec]

/-- Distance to the empty string is the other string's length. -/
theorem levSpec_nil_right (xs : List Char) : levSpec xs [] = xs.length := by
  cases xs <;> simp [levSpec]

/-- Unfolding equation of `levSpec` on two nonempty lists. -/
theorem levSpec_cons_cons (x y : Char) (xs ys : List Char) :
    levSpec (x :: xs) (y :: ys)
      = if x = y then levSpec xs ys
        else 1 + min (levSpec xs ys)
            (min (levSpec (x :: xs) ys) (levSpec xs (y :: ys))) := by
  simp only [levSpec]

set_option maxHeartbeats 1000000 in
/-- Snoc-snoc recurrence: the head recurrence of `levSpec` also holds at
the last characters of both lists. -/
theorem levSpec_snoc (N : Nat) : ∀ (as bs : List Char) (a b : Char),
    as.length + bs.length ≤ N →
    levSpec (as ++ [a]) (bs ++ [b])
      = if a = b then levSpec as bs
        else 1 + min (levSpec as bs)
            (min (levSpec (as ++ [a]) bs) (levSpec as (bs ++ [b]))) := by
  induction N with
  | zero =>
    intro as bs a b h
    cases as with
    | nil =>
      cases bs with
      | nil =>
        simp only [List.nil_append]
        rw [levSpec_cons_cons a b [] []]
      | cons c cs => simp only [List.length_nil, List.length_cons] at h; omega
    | cons d ds => simp only [List.length_cons] at h; omega
  | succ n ih =>
    intro as bs a b h
    cases as with
    | nil =>
      cases bs with
      | nil =>
        simp only [List.nil_append]
        rw [levSpec_cons_cons a b [] []]
      | cons c cs =>
        have A := ih [] cs a b
          (by simp only [List.length_nil, List.length_cons] at h ⊢; omega)
        simp only [List.nil_append, List.cons_append] at A ⊢
        rw [levSpec_cons_cons a c [] (cs ++ [b]), levSpec_cons_cons a c [] cs]
        simp only [levSpec_nil_left, levSpec_nil_right, List.length_append,
          List.length_cons, List.length_nil] at A ⊢
        split_ifs at A ⊢ <;> omega
    | cons d ds =>
      cases bs with
      | nil =>
        have A := ih ds [] a b
          (by simp only [List.length_nil, List.length_cons] at h ⊢; omega)
        simp only [List.nil_append, List.cons_append] at A ⊢
        rw [levSpec_cons_cons d b (ds ++ [a]) [], levSpec_cons_cons d b ds []]
        simp only [levSpec_nil_left, levSpec_nil_right, List.length_append,
          List.length_cons, List.length_nil] at A ⊢
        split_ifs at A ⊢ <;> omega
      | cons c cs =>
        simp only [List.length_cons] at h
        have A1 := ih ds cs a b (by omega)
        have A2 := ih (d :: ds) cs a b (by simp only [List.length_cons]; omega)
        have A3 := ih ds (c :: cs) a b (by simp only [List.length_cons]; omega)
        simp only [List.cons_append] at A2 A3 ⊢
        rw [levSpec_cons_cons d c (ds ++ [a]) (cs ++ [b]),
          levSpec_cons_cons d c ds cs,
          levSpec_cons_cons d c (ds ++ [a]) cs,
          levSpec_cons_cons d c ds (cs ++ [b])]
        by_cases hdc : d = c
        · by_cases hab : a = b
          · simp only [if_pos hdc, if_pos hab] at A1 ⊢
            exact A1
          · simp only [if_pos hdc, if_neg hab] at A1 ⊢
            exact A1
        · by_cases hab : a = b
          · simp only [if_neg hdc, if_pos hab] at A1 A2 A3 ⊢
            rw [A1, A2, A3]
          · simp only [if_neg hdc, if_neg hab] at A1 A2 A3 ⊢
            rw [A1, A2, A3]
            simp only [Nat.add_min_add_left]
            simp only [min_assoc, min_comm, min_left_comm]

/-- Reversing both arguments preserves `levSpec` (bounded form). -/
theorem levSpec_rev (N : Nat) : ∀ (as bs : List Char),
    as.length + bs.length ≤ N →
    levSpec as.reverse bs.reverse = levSpec as bs := by
  induction N with
  | zero =>
    intro as bs h
    rw [Nat.le_zero] at h
    have h1 : as.length = 0 := by omega
    have h2 : bs.length = 0 := by omega
    rw [List.length_eq_zero] at h1 h2
    subst h1; subst h2; rfl
  | succ n ih =>
    intro as bs h
    cases as with
    | nil => simp [levSpec_nil_left]
    | cons a as' =>
      cases bs with
      | nil => simp [levSpec_nil_right]
      | cons b bs' =>
        simp only [List.length_cons] at h
        rw [List.reverse_cons, List.reverse_cons,
          levSpec_snoc (as'.reverse.length + bs'.reverse.length)
            as'.reverse bs'.reverse a b le_rfl,
          ih as' bs' (by omega),
          ← List.reverse_cons a as', ← List.reverse_cons b bs',
          ih (a :: as') bs' (by simp only [List.length_cons]; omega),
          ih as' (b :: bs') (by simp only [List.length_cons]; omega)]
        rw [levSpec_cons_cons a b as' bs']

/-- Reversing both arguments preserves `levSpec`. -/
theorem levSpec_reverse (as bs : List Char) :
    levSpec as.reverse bs.reverse = levSpec as bs :=
  levSpec_rev (as.length + bs.length) as bs le_rfl

/-- Symmetry of `levSpec` (bounded form). -/
theorem levSpec_comm_aux (N : Nat) : ∀ (as bs : List Char),
    as.length + bs.length ≤ N → levSpec as bs = levSpec bs as := by
  induction N with
  | zero =>
    intro as bs h
    rw [Nat.le_zero] at h
    have h1 : as.length = 0 := by omega
    have h2 : bs.length = 0 := by omega
    rw [List.length_eq_zero] at h1 h2
    subst h1; subst h2; rfl
  | succ n ih =>
    intro as bs h
    cases as with
    | nil => simp [levSpec_nil_left, levSpec_nil_right]
    | cons a as' =>
      cases bs with
      | nil => simp [levSpec_nil_left, levSpec_nil_right]
      | cons b bs' =>
        simp only [List.length_cons] at h
        have A1 := ih as' bs' (by omega)
        have A2 := ih as' (b :: bs') (by simp only [List.length_cons]; omega)
        have A3 := ih (a :: as') bs' (by simp only [List.length_cons]; omega)
        by_cases hab : a = b
        · subst hab
          rw [levSpec_cons_cons a a as' bs', levSpec_cons_cons a a bs' as']
          split_ifs with hh
          · exact A1
          · exact absurd rfl hh
        · have hba : ¬ b = a := fun hh => hab hh.symm
          rw [levSpec_cons_cons a b as' bs', levSpec_cons_cons b a bs' as',
            if_neg hab, if_neg hba]
          omega

/-- Symmetry of `levSpec`. -/
theorem levSpec_comm (as bs : List Char) : levSpec as bs = levSpec bs as :=
  levSpec_comm_aux (as.length + bs.length) as bs le_rfl

/-- One cell of the inner loop of `CleanupService.levenshteinDistance`:
keep the diagonal on equal characters, else 1 + the minimum of diagonal,
left and up neighbors (the JS `Math.min` argument order). -/
def levCell (c2 c1 : Char) (pDiag left up : Nat) : Nat :=
  if c2 = c1 then pDiag else min (min (pDiag + 1) (left + 1)) (up + 1)

/-- The inner j-loop of `CleanupService.levenshteinDistance`: walk the
characters of str1 together with the previous matrix row, threading the
freshly computed left neighbor. -/
def levRow (c2 : Char) : List Char → List Nat → Nat → List Nat
  | c1 :: cs, pDiag :: pRest, left =>
    levCell c2 c1 pDiag left (pRest.headD 0) ::
      levRow c2 cs pRest (levCell c2 c1 pDiag left (pRest.headD 0))
  | _, _, _ => []

/-- One outer i-iteration of `CleanupService.levenshteinDistance`: the new
row starts with matrix[i][0] = i and continues with the inner loop. -/
def levStep (s1 : List Char) (acc : List Nat × Nat) (c2 : Char) : List Nat × Nat :=
  ((acc.2 + 1) :: levRow c2 s1 acc.1 (acc.2 + 1), acc.2 + 1)

/-- `CleanupService.levenshteinDistance`: row-by-row dynamic program; the
answer is the last cell of the final row, `matrix[str2.length][str1.length]`. -/
def levenshteinDistance (str1 str2 : String) : Nat :=
  (str2.data.foldl (levStep str1.data)
    (List.range (str1.data.length + 1), 0)).1.getLastD 0

/-- Intended value of a DP row: the distances of `levSpec` between the
reversed processed part of str2 and the reversed prefixes of str1. -/
def rowSpec (rev2 : List Char) : List Char → List Char → List Nat
  | rev1, [] => [levSpec rev2 rev1]
  | rev1, c :: cs => levSpec rev2 rev1 :: rowSpec rev2 (c :: rev1) cs

/-- The head of a `rowSpec` row. -/
theorem rowSpec_headD (rev2 rev1 t : List Char) (d : Nat) :
    (rowSpec rev2 rev1 t).headD d = levSpec rev2 rev1 := by
  cases t <;> rfl

/-- A DP cell computed from correct neighbors is correct. -/
theorem levCell_spec (c2 c : Char) (rev2 rev1 : List Char) :
    levCell c2 c (levSpec rev2 rev1) (levSpec (c2 :: rev2) rev1)
        (levSpec rev2 (c :: rev1))
      = levSpec (c2 :: rev2) (c :: rev1) := by
  simp only [levCell]
  rw [levSpec_cons_cons c2 c rev2 rev1]
  split_ifs <;> omega

/-- The inner loop maps a correct previous row to a correct new row. -/
theorem levRow_spec (c2 : Char) (rev2 : List Char) :
    ∀ (t rev1 : List Char),
    levSpec (c2 :: rev2) rev1
        :: levRow c2 t (rowSpec rev2 rev1 t) (levSpec (c2 :: rev2) rev1)
      = rowSpec (c2 :: rev2) rev1 t := by
  intro t
  induction t with
  | nil => intro rev1; rfl
  | cons c cs ih =>
    intro rev1
    rw [show rowSpec rev2 rev1 (c :: cs)
        = levSpec rev2 rev1 :: rowSpec rev2 (c :: rev1) cs from rfl]
    rw [show levRow c2 (c :: cs)
          (levSpec rev2 rev1 :: rowSpec rev2 (c :: rev1) cs)
          (levSpec (c2 :: rev2) rev1)
        = levCell c2 c (levSpec rev2 rev1) (levSpec (c2 :: rev2) rev1)
            ((rowSpec rev2 (c :: rev1) cs).headD 0)
          :: levRow c2 cs (rowSpec rev2 (c :: rev1) cs)
              (levCell c2 c (levSpec rev2 rev1) (levSpec (c2 :: rev2) rev1)
                ((rowSpec rev2 (c :: rev1) cs).headD 0)) from rfl]
    rw [rowSpec_headD rev2 (c :: rev1) cs 0]
    rw [levCell_spec c2 c rev2 rev1]
    rw [show rowSpec (c2 :: rev2) rev1 (c :: cs)
        = levSpec (c2 :: rev2) rev1 :: rowSpec (c2 :: rev2) (c :: rev1) cs from rfl]
    rw [← ih (c :: rev1)]

/-- The outer fold keeps the row/row-number invariant. -/
theorem levFold (s1 : List Char) (s2p : List Char) : ∀ (rev2 : List Char),
    s2p.foldl (levStep s1) (rowSpec rev2 [] s1, rev2.length)
      = (rowSpec (s2p.reverse ++ rev2) [] s1, s2p.length + rev2.length) := by
  induction s2p with
  | nil => intro rev2; simp
  | cons c2 cs ih =>
    intro rev2
    rw [List.foldl_cons]
    have h1 : (rev2.length + 1)
          :: levRow c2 s1 (rowSpec rev2 [] s1) (rev2.length + 1)
        = rowSpec (c2 :: rev2) [] s1 := by
      have hh := levRow_spec c2 rev2 s1 []
      rw [show levSpec (c2 :: rev2) [] = rev2.length + 1 from by
        rw [levSpec_nil_right, List.length_cons]] at hh
      exact hh
    have hstep : levStep s1 (rowSpec rev2 [] s1, rev2.length) c2
        = (rowSpec (c2 :: rev2) [] s1, (c2 :: rev2).length) := by
      show ((rev2.length + 1)
          :: levRow c2 s1 (rowSpec rev2 [] s1) (rev2.length + 1),
          rev2.length + 1) = _
      rw [h1, List.length_cons]
    rw [hstep, ih (c2 :: rev2)]
    rw [show (c2 :: cs).reverse ++ rev2 = cs.reverse ++ (c2 :: rev2) from by simp]
    rw [show (c2 :: cs).length + rev2.length = cs.length + (c2 :: rev2).length from by
      simp only [List.length_cons]; omega]

/-- The initial row `[0, 1, ..., str1.length]` is the row of the empty
prefix of str2. -/
theorem rowSpec_start (t : List Char) : ∀ (rev1 : List Char),
    rowSpec [] rev1 t = List.range' rev1.length (t.length + 1) := by
  induction t with
  | nil =>
    intro rev1
    rw [show rowSpec [] rev1 [] = [levSpec [] rev1] from rfl, levSpec_nil_left]
    rfl
  | cons c cs ih =>
    intro rev1
    rw [show rowSpec [] rev1 (c :: cs)
        = levSpec [] rev1 :: rowSpec [] (c :: rev1) cs from rfl,
      levSpec_nil_left, ih (c :: rev1)]
    rw [show (c :: rev1).length = rev1.length + 1 from rfl]
    rw [show (c :: cs).length + 1 = cs.length + 1 + 1 from rfl]
    rw [show List.range' rev1.length (cs.length + 1 + 1)
        = rev1.length :: List.range' (rev1.length + 1) (cs.length + 1) from rfl]

/-- The last cell of a row is the distance for the whole of str1. -/
theorem rowSpec_getLast (rev2 : List Char) : ∀ (t rev1 : List Char) (d : Nat),
    (rowSpec rev2 rev1 t).getLastD d = levSpec rev2 (t.reverse ++ rev1) := by
  intro t
  induction t with
  | nil =>
    intro rev1 d
    simp [rowSpec]
  | cons c cs ih =>
    intro rev1 d
    rw [show rowSpec rev2 rev1 (c :: cs)
        = levSpec rev2 rev1 :: rowSpec rev2 (c :: rev1) cs from rfl,
      List.getLastD_cons, ih (c :: rev1) (levSpec rev2 rev1)]
    rw [show (c :: cs).reverse ++ rev1 = cs.reverse ++ (c :: rev1) from by simp]

/-- The dynamic program of `CleanupService.levenshteinDistance` computes
exactly the textbook Levenshtein distance `levSpec`. -/
theorem levenshteinDistance_eq (str1 str2 : String) :
    levenshteinDistance str1 str2 = levSpec str1.data str2.data := by
  have h0 : List.range (str1.data.length + 1) = rowSpec [] [] str1.data := by
    rw [List.range_eq_range', rowSpec_start str1.data [], List.length_nil]
  rw [show levenshteinDistance str1 str2
      = (str2.data.foldl (levStep str1.data)
          (List.range (str1.data.length + 1), 0)).1.getLastD 0 from rfl]
  rw [h0]
  have hfold := levFold str1.data str2.data []
  simp only [List.length_nil, Nat.add_zero, List.append_nil] at hfold
  rw [hfold]
  show (rowSpec str2.data.reverse [] str1.data).getLastD 0
      = levSpec str1.data str2.data
  rw [rowSpec_getLast str2.data.reverse str1.data [] 0]
  rw [List.append_nil]
  rw [levSpec_reverse str2.data str1.data]
  exact levSpec_comm str2.data str1.data

/-- `CleanupService.calculateSimilarity` on the path where the Gemini
service is unavailable, with the configured duplicate threshold passed as
a parameter: both messages are lowercased first; equal lowercased
messages give 1, otherwise the normalized Levenshtein similarity is
returned whether or not it reaches the threshold (both branches return
`simpleSimilarity`). -/
def calculateSimilarity (threshold : ℚ) (m1 m2 : String) : ℚ :=
  if lowerStr m1 = lowerStr m2 then 1
  else
    if threshold ≤ 1 - (levenshteinDistance (lowerStr m1) (lowerStr m2) : ℚ)
          / ((max (lowerStr m1).length (lowerStr m2).length : ℕ) : ℚ) then
      1 - (levenshteinDistance (lowerStr m1) (lowerStr m2) : ℚ)
        / ((max (lowerStr m1).length (lowerStr m2).length : ℕ) : ℚ)
    else
      1 - (levenshteinDistance (lowerStr m1) (lowerStr m2) : ℚ)
        / ((max (lowerStr m1).length (lowerStr m2).length : ℕ) : ℚ)

/-- The double loop of `CleanupService.removeDuplicatesForApplication`:
the ordered pairs (i < j) whose similarity is computed; `continue` skips
an entry exactly when its state is `closed`. -/
def consideredPairs : List LogEntry → List (LogEntry × LogEntry)
  | [] => []
  | l1 :: rest =>
    (if l1.state = LogState.closed then []
     else (rest.filter fun l2 => !(l2.state = LogState.closed)).map
        fun l2 => (l1, l2))
      ++ consideredPairs rest

/-- All ordered pairs (i < j) of a list of issues. -/
def allPairs : List LogEntry → List (LogEntry × LogEntry)
  | [] => []
  | x :: rest => (rest.map fun y => (x, y)) ++ allPairs rest

/-- The pairs the cleanup loop considers are exactly all ordered pairs
with both members not `closed`; `pending` issues are not skipped. -/
theorem consideredPairs_filter (logs : List LogEntry) :
    consideredPairs logs
      = (allPairs logs).filter
          fun p => !(p.1.state = LogState.closed)
            && !(p.2.state = LogState.closed) := by
  induction logs with
  | nil => rfl
  | cons l rest ih =>
    rw [show consideredPairs (l :: rest)
        = (if l.state = LogState.closed then []
           else (rest.filter fun l2 => !(l2.state = LogState.closed)).map
              fun l2 => (l, l2))
          ++ consideredPairs rest from rfl]
    rw [show allPairs (l :: rest) = (rest.map fun y => (l, y)) ++ allPairs rest
      from rfl]
    rw [List.filter_append, ih]
    congr 1
    by_cases hl : l.state = LogState.closed
    · rw [if_pos hl]
      symm
      rw [List.filter_eq_nil_iff]
      intro p hp
      obtain ⟨y, _, rfl⟩ := List.mem_map.mp hp
      simp [hl]
    · rw [if_neg hl, List.filter_map]
      congr 1
      apply List.filter_congr
      intro y hy
      simp [Function.comp, hl]

/-- A `pending` issue (for the C5 counterexample). -/
def pendingIssueP : LogEntry :=
  { id := "p1", application_id := "A", timestamp := 1, message := "boot",
    state := .pending }

/-- A second `pending` issue with the same message. -/
def pendingIssueQ : LogEntry :=
  { id := "p2", application_id := "A", timestamp := 2, message := "boot",
    state := .pending }

/-- C5 counterexample: a pair of `pending` issues is considered by the
cleanup duplicate loop (the claim says `pending` is excluded), and the
similarity of messages "AB" and "ab" is 1 because the code lowercases
before comparing, while the claim's formula on the messages as given,
1 - d/max(lengths), yields 0. -/
theorem cleanup_similarity_cex :
    pendingIssueP.state = LogState.pending
    ∧ pendingIssueQ.state = LogState.pending
    ∧ consideredPairs [pendingIssueP, pendingIssueQ]
        = [(pendingIssueP, pendingIssueQ)]
    ∧ "AB" ≠ "ab"
    ∧ calculateSimilarity (85 / 100) "AB" "ab" = 1
    ∧ 1 - (levSpec "AB".data "ab".data : ℚ)
        / ((max "AB".length "ab".length : ℕ) : ℚ) = 0
    ∧ (1 : ℚ) ≠ 0 := by
  refine ⟨rfl, rfl, rfl, by decide, ?_, ?_, by norm_num⟩
  · show calculateSimilarity (85 / 100) "AB" "ab" = 1
    unfold calculateSimilarity
    rw [if_pos (by decide : lowerStr "AB" = lowerStr "ab")]
  · have hd : levSpec "AB".data "ab".data = 2 := by
      rw [← levenshteinDistance_eq "AB" "ab"]
      decide
    rw [hd, show (max "AB".length "ab".length : ℕ) = 2 from by decide]
    norm_num

/-- C5 (amended): cleanup candidate pairs exclude exactly the `closed`
issues (`pending` is not excluded), and, absent LLM refinement, the
similarity of a pair is computed on the lowercased messages: 1 when they
are equal after lowercasing, otherwise the normalized Levenshtein
similarity 1 - d/max(lengths) of the lowercased messages, where d is the
textbook edit distance. -/
theorem cleanup_similarity_spec :
    (∀ logs : List LogEntry,
        consideredPairs logs
          = (allPairs logs).filter
              fun p => !(p.1.state = LogState.closed)
                && !(p.2.state = LogState.closed))
    ∧ (∀ (t : ℚ) (m1 m2 : String), lowerStr m1 = lowerStr m2 →
        calculateSimilarity t m1 m2 = 1)
    ∧ (∀ (t : ℚ) (m1 m2 : String), lowerStr m1 ≠ lowerStr m2 →
        calculateSimilarity t m1 m2
          = 1 - (levSpec (lowerStr m1).data (lowerStr m2).data : ℚ)
              / ((max (lowerStr m1).length (lowerStr m2).length : ℕ) : ℚ)) := by
  refine ⟨consideredPairs_filter, ?_, ?_⟩
  · intro t m1 m2 h
    unfold calculateSimilarity
    rw [if_pos h]
  · intro t m1 m2 h
    unfold calculateSimilarity
    rw [if_neg h, ite_self, levenshteinDistance_eq]

/-- C5 (amended): cleanup candidate pairs exclude exactly the `closed`
issues (`pending` is not excluded), and, absent LLM refinement, the
similarity of a pair is computed on the lowercased messages: 1 when they
are equal after lowercasing, otherwise the normalized Levenshtein
similarity 1 - d/max(lengths) of the lowercased messages, where d is the
textbook edit distance. -/
theorem cleanup_similarity_spec_witness :
    lowerStr "Crash" ≠ lowerStr "Cart"
    ∧ calculateSimilarity (85 / 100) "Crash" "Cart"
        = 1 - (levSpec (lowerStr "Crash").data (lowerStr "Cart").data : ℚ)
            / ((max (lowerStr "Crash").length (lowerStr "Cart").length : ℕ) : ℚ)
    ∧ lowerStr "same" = lowerStr "SAME"
    ∧ calculateSimilarity (85 / 100) "same" "SAME" = 1 :=
  ⟨by decide,
   cleanup_similarity_spec.2.2 (85 / 100) "Crash" "Cart" (by decide),
   by decide,
   cleanup_similarity_spec.2.1 (85 / 100) "same" "SAME" (by decide)⟩


end LogSink
